import Mathlib

/-!
Verification of the constraint-programming scheduling core (or-tools subtree).

This file shallowly embeds the parts of the Python source that the claims
C1..C10 are about:

* `src/solvers/constraint_builder.py` (task variables, resource constraints,
  qualification constraints),
* `src/solvers/objective_builder.py` (weighted objective synthesis),
* `src/solvers/cpsat_solver.py` (the solve pipeline ordering),
* `src/models/schedule.py` (duration/interval validator),
* `src/models/event.py` and `src/services/event_service.py` (event scope,
  validation and batched application),
* `src/services/scheduling_service.py` (request validation, parsing,
  business-rule checks, cycle detection, makespan formatting).

Conventions of the embedding:

* Python `float` values are modelled as exact rationals `ℚ`; the places where
  binary floating point matters for a claim are noted at the definition.
* Python `int(x)` (truncation toward zero) is modelled by `pyInt`.
* Python `datetime` values are modelled as integer epoch seconds.
* Python dictionaries keyed by strings are modelled as association lists; the
  sources under scrutiny use them with distinct keys.
* Raised exceptions are modelled with `Except` and the `SchedError` type,
  whose constructors mirror the exception classes of `src/core/exceptions.py`.
-/

namespace ORToolsSched

/-- Python `int(x)` for a rational: truncation toward zero. -/
def pyInt (q : ℚ) : ℤ := if 0 ≤ q then ⌊q⌋ else ⌈q⌉

/-! ## Domain model (`src/models/job.py`, `src/models/resource.py`,
`src/models/preparation.py`) -/

/-- `ResourceRequirement` from `src/models/job.py`. -/
structure ResourceRequirement where
  resource_id : String
  quantity : ℤ
  is_critical : Bool
deriving DecidableEq

/-- `Job` from `src/models/job.py`, restricted to the fields the claims use.
Datetime fields are epoch seconds. -/
structure Job where
  job_id : String
  work_card_id : String
  engine_id : String
  name : String
  base_duration_hours : ℚ
  required_resources : List ResourceRequirement := []
  required_qualifications : List String := []
  predecessor_jobs : List String := []
  earliest_start : Option ℤ := none
  latest_finish : Option ℤ := none
  fixed_start : Option ℤ := none
  fixed_duration : Option ℚ := none
deriving DecidableEq

/-- `Job.has_resource_requirement` from `src/models/job.py`. -/
def Job.has_resource_requirement (j : Job) (rid : String) : Bool :=
  j.required_resources.any (fun req => req.resource_id == rid)

/-- The `HumanResource` / `PhysicalResource` split of `src/models/resource.py`;
`isinstance` checks in the source become matches on this tag. -/
inductive ResourceKind where
  | human (employee_id : String) (qualifications : List String)
  | physical (is_exclusive : Bool) (exclusive_group : Option String)
deriving DecidableEq

/-- `Resource` from `src/models/resource.py`, restricted to the fields the
claims use. -/
structure Resource where
  resource_id : String
  name : String
  total_quantity : ℤ := 1
  hourly_cost : Option ℚ := none
  kind : ResourceKind
deriving DecidableEq

/-- `isinstance(r, HumanResource)`. -/
def Resource.is_human (r : Resource) : Bool :=
  match r.kind with
  | .human _ _ => true
  | .physical _ _ => false

/-- `HumanResource.has_qualification` from `src/models/resource.py`; a
physical resource holds no qualifications. -/
def Resource.has_qualification (r : Resource) (q : String) : Bool :=
  match r.kind with
  | .human _ quals => quals.contains q
  | .physical _ _ => false

/-- `PreparationTask` from `src/models/preparation.py`, restricted to the
fields the claims use.  `required_assets` is the list of the `asset_id`
entries of the source's dict list. -/
structure PreparationTask where
  prep_id : String
  engine_id : String
  work_package_id : String
  name : String
  type : String
  duration_hours : ℚ := 1
  is_gate : Bool := false
  dependencies : List String := []
  earliest_start : Option ℤ := none
  latest_finish : Option ℤ := none
  required_assets : List String := []
deriving DecidableEq

/-! ## Errors (`src/core/exceptions.py`) -/

/-- The exception classes of `src/core/exceptions.py` with the payloads the
claims inspect. -/
inductive SchedError where
  | validation (message : String)
  | resource_conflict (message : String) (conflicting_resources : List String)
  | constraint_violation (message : String) (violated_constraints : List String)
  | solver_error (message : String)
  | configuration_error (message : String)
  | event_processing (message : String)
deriving DecidableEq

/-- `type(e).__name__`, as used by `create_schedule` for the error code of a
failure response. -/
def SchedError.etype : SchedError → String
  | .validation _ => "ValidationError"
  | .resource_conflict _ _ => "ResourceConflictError"
  | .constraint_violation _ _ => "ConstraintViolationError"
  | .solver_error _ => "SolverError"
  | .configuration_error _ => "ConfigurationError"
  | .event_processing _ => "EventProcessingError"

/-- The `message` attribute of a `SchedulingError`. -/
def SchedError.message : SchedError → String
  | .validation m => m
  | .resource_conflict m _ => m
  | .constraint_violation m _ => m
  | .solver_error m => m
  | .configuration_error m => m
  | .event_processing m => m

/-- The `details["violated_constraints"]` payload (empty list when absent). -/
def SchedError.violated_constraints : SchedError → List String
  | .constraint_violation _ v => v
  | _ => []

/-- The `details["conflicting_resources"]` payload (empty list when absent). -/
def SchedError.conflicting_resources : SchedError → List String
  | .resource_conflict _ c => c
  | _ => []

/-! ## Event scope (`src/models/event.py`) -/

/-- `EventScope`: the five id collections, as Python lists. -/
structure EventScope where
  engines : List String := []
  work_packages : List String := []
  prep_ids : List String := []
  job_ids : List String := []
  resource_ids : List String := []
deriving DecidableEq

/-- `EventScope.is_empty`: `not any([...])` over the five lists. -/
def EventScope.is_empty (s : EventScope) : Bool :=
  s.engines.isEmpty && s.work_packages.isEmpty && s.prep_ids.isEmpty &&
    s.job_ids.isEmpty && s.resource_ids.isEmpty

/-- `EventScope.merge`: per field the source computes `list(set(a + b))`.
Python's set iteration order is unspecified, so the embedding determinizes it
as `(a ++ b).dedup`, which has the same element set. -/
def EventScope.merge (s other : EventScope) : EventScope :=
  { engines := (s.engines ++ other.engines).dedup
    work_packages := (s.work_packages ++ other.work_packages).dedup
    prep_ids := (s.prep_ids ++ other.prep_ids).dedup
    job_ids := (s.job_ids ++ other.job_ids).dedup
    resource_ids := (s.resource_ids ++ other.resource_ids).dedup }

/-- The element sets of the five id collections of a scope; `list(set(...))`
results are only determined up to these sets. -/
def EventScope.element_sets (s : EventScope) :
    Finset String × Finset String × Finset String × Finset String × Finset String :=
  (s.engines.toFinset, s.work_packages.toFinset, s.prep_ids.toFinset,
    s.job_ids.toFinset, s.resource_ids.toFinset)

/-! ## Constraint builder (`src/solvers/constraint_builder.py`) -/

/-- The duration variable created for a task by `_create_task_variables`:
either a `model.NewConstant` or a `model.NewIntVar` range. -/
inductive DurationVar where
  | const (minutes : ℤ)
  | range (lo hi : ℤ)
deriving DecidableEq

/-- Duration variable of a job (`_create_task_variables`, the job loop):
`if job.fixed_duration:` is Python truthiness, so a present-but-zero value
falls through to the range branch; `int(...)` truncates.  The arithmetic is
exact rational arithmetic standing for the source's binary floats. -/
def job_duration_var (j : Job) : DurationVar :=
  match j.fixed_duration with
  | some f =>
    if f = 0 then
      .range (pyInt (j.base_duration_hours * 60 * (4/5)))
        (pyInt (j.base_duration_hours * 60 * (3/2)))
    else .const (pyInt (f * 60))
  | none =>
    .range (pyInt (j.base_duration_hours * 60 * (4/5)))
      (pyInt (j.base_duration_hours * 60 * (3/2)))

/-- Duration variable of a preparation task (`_create_task_variables`,
the preparation loop): always a constant of `int(duration_hours * 60)`. -/
def prep_duration_var (t : PreparationTask) : DurationVar :=
  .const (pyInt (t.duration_hours * 60))

/-- `_datetime_to_minutes`: `int(delta.total_seconds() / 60)` with datetimes
as epoch seconds. -/
def datetime_to_minutes (dt plan_start : ℤ) : ℤ :=
  pyInt (((dt - plan_start : ℤ) : ℚ) / 60)

/-- The constraints that `CPSATConstraintBuilder` emits into the CP model,
abstracted from the CP-SAT handles. -/
inductive CPConstraint where
  | precedence (pred succ : String)
  | no_overlap (resource_id : String) (tasks : List String)
  | earliest_start (task : String) (minutes : ℤ)
  | latest_finish (task : String) (minutes : ℤ)
  | fixed_start (task : String) (minutes : ℤ)
  | qualification (job q : String) (candidates : List String)
  | task_execution (job : String) (personnel : List String)
deriving DecidableEq

/-- The task ids that receive variables: all job ids then all prep ids
(`_create_task_variables` creates variables for every job and every
preparation task). -/
def builder_task_ids (jobs : List Job) (preps : List PreparationTask) : List String :=
  jobs.map (fun j => j.job_id) ++ preps.map (fun t => t.prep_id)

/-- `_build_precedence_constraints`: one `end(pred) ≤ start(succ)` per
predecessor edge whose two endpoints have variables. -/
def build_precedence_constraints (jobs : List Job) (preps : List PreparationTask) :
    List CPConstraint :=
  let ids := builder_task_ids jobs preps
  (jobs.map (fun j =>
    (j.predecessor_jobs.filter
      (fun p => ids.contains p && ids.contains j.job_id)).map
      (fun p => CPConstraint.precedence p j.job_id))).flatten ++
  (preps.map (fun t =>
    (t.dependencies.filter
      (fun d => ids.contains d && ids.contains t.prep_id)).map
      (fun d => CPConstraint.precedence d t.prep_id))).flatten

/-- The `requiring_tasks` list that `_build_resource_constraints` collects for
one resource: every job for a human resource, only the explicitly requiring
jobs for a physical resource, then the preparation tasks whose
`required_assets` mention the resource. -/
def resource_requiring_tasks (r : Resource) (jobs : List Job)
    (preps : List PreparationTask) : List String :=
  (match r.kind with
   | .human _ _ => jobs.map (fun j => j.job_id)
   | .physical _ _ =>
     (jobs.filter (fun j => j.has_resource_requirement r.resource_id)).map
       (fun j => j.job_id)) ++
  (preps.filter (fun t => t.required_assets.contains r.resource_id)).map
    (fun t => t.prep_id)

/-- The `resource_assignments` dictionary: per resource, the list of task ids
for which an `assign_{r}_{t}` boolean was created (in creation order). -/
def build_resource_assignments (jobs : List Job) (preps : List PreparationTask)
    (resources : List Resource) : List (String × List String) :=
  resources.map (fun r => (r.resource_id, resource_requiring_tasks r jobs preps))

/-- Membership test `rid in resource_assignments and t in
resource_assignments[rid]`. -/
def assignments_contains (assignments : List (String × List String))
    (rid t : String) : Bool :=
  match assignments.lookup rid with
  | some tasks => tasks.contains t
  | none => false

/-- `_build_exclusive_resource_constraint`: with more than one requiring task,
emit one `AddNoOverlap` over the optional intervals of the tasks that have
both an assignment variable and an interval variable. -/
def build_exclusive_resource_constraint (resource_id : String)
    (requiring_tasks : List String) (assignments : List (String × List String))
    (task_ids : List String) : List CPConstraint :=
  if requiring_tasks.length ≤ 1 then []
  else
    let intervals := requiring_tasks.filter
      (fun t => assignments_contains assignments resource_id t && task_ids.contains t)
    if intervals.isEmpty then [] else [.no_overlap resource_id intervals]

/-- `_build_cumulative_resource_constraint`: quantity `≤ 1` falls back to the
exclusive constraint; for quantity `≥ 2` the source body is a TODO comment
followed by `pass`, so nothing is emitted. -/
def build_cumulative_resource_constraint (r : Resource)
    (requiring_tasks : List String) (assignments : List (String × List String))
    (task_ids : List String) : List CPConstraint :=
  if r.total_quantity ≤ 1 then
    build_exclusive_resource_constraint r.resource_id requiring_tasks
      assignments task_ids
  else []

/-- `_build_resource_constraints`: capacity constraints per resource —
exclusive physical resources get the no-overlap constraint, everything else
goes through the cumulative builder. -/
def build_resource_constraints (jobs : List Job) (preps : List PreparationTask)
    (resources : List Resource) (assignments : List (String × List String))
    (task_ids : List String) : List CPConstraint :=
  (resources.map (fun r =>
    let reqs := resource_requiring_tasks r jobs preps
    match r.kind with
    | .physical true _ =>
      build_exclusive_resource_constraint r.resource_id reqs assignments task_ids
    | _ => build_cumulative_resource_constraint r reqs assignments task_ids)).flatten

/-- `_build_time_window_constraints` for jobs and preparation tasks. -/
def build_time_window_constraints (jobs : List Job) (preps : List PreparationTask)
    (plan_start : ℤ) : List CPConstraint :=
  let ids := builder_task_ids jobs preps
  (jobs.map (fun j =>
    (match j.earliest_start with
     | some dt =>
       if ids.contains j.job_id then
         [CPConstraint.earliest_start j.job_id (datetime_to_minutes dt plan_start)]
       else []
     | none => []) ++
    (match j.latest_finish with
     | some dt =>
       if ids.contains j.job_id then
         [CPConstraint.latest_finish j.job_id (datetime_to_minutes dt plan_start)]
       else []
     | none => []) ++
    (match j.fixed_start with
     | some dt =>
       if ids.contains j.job_id then
         [CPConstraint.fixed_start j.job_id (datetime_to_minutes dt plan_start)]
       else []
     | none => []))).flatten ++
  (preps.map (fun t =>
    (match t.earliest_start with
     | some dt =>
       if ids.contains t.prep_id then
         [CPConstraint.earliest_start t.prep_id (datetime_to_minutes dt plan_start)]
       else []
     | none => []) ++
    (match t.latest_finish with
     | some dt =>
       if ids.contains t.prep_id then
         [CPConstraint.latest_finish t.prep_id (datetime_to_minutes dt plan_start)]
       else []
     | none => []))).flatten

/-- The message of the `ConstraintViolationError` raised by
`_build_collaborative_qualification_constraint`. -/
def qualification_message (q job_id : String) : String :=
  "No personnel found with qualification \x27" ++ q ++ "\x27 for job " ++ job_id

/-- The inner loop of `_build_collaborative_qualification_constraint`: walk
the required qualifications of one job; the first qualification for which no
assigned qualified person exists raises. -/
def qualification_loop (job_id : String) (humans : List Resource)
    (assignments : List (String × List String)) :
    List String → Except SchedError (List CPConstraint)
  | [] => .ok []
  | q :: qs =>
    let qualified := (humans.filter (fun hr =>
      hr.has_qualification q &&
        assignments_contains assignments hr.resource_id job_id)).map
      (fun hr => hr.resource_id)
    if qualified.isEmpty then
      .error (.constraint_violation (qualification_message q job_id) [])
    else do
      let rest ← qualification_loop job_id humans assignments qs
      .ok (.qualification job_id q qualified :: rest)

/-- `_build_qualification_constraints`: per job with required qualifications,
run the collaborative constraint builder; jobs with an empty qualification
list are skipped (equivalently, their loop contributes nothing). -/
def build_qualification_constraints (humans : List Resource)
    (assignments : List (String × List String)) :
    List Job → Except SchedError (List CPConstraint)
  | [] => .ok []
  | j :: js => do
    let c ← qualification_loop j.job_id humans assignments j.required_qualifications
    let rest ← build_qualification_constraints humans assignments js
    .ok (c ++ rest)

/-- `_build_task_execution_constraints`: every job with at least one human
assignment variable gets a `sum ≥ 1` constraint over its personnel. -/
def build_task_execution_constraints (jobs : List Job) (resources : List Resource)
    (assignments : List (String × List String)) (task_ids : List String) :
    List CPConstraint :=
  let humans := resources.filter (fun r => r.is_human)
  jobs.filterMap (fun j =>
    if task_ids.contains j.job_id then
      let personnel := (humans.filter (fun hr =>
        assignments_contains assignments hr.resource_id j.job_id)).map
        (fun hr => hr.resource_id)
      if personnel.isEmpty then none
      else some (.task_execution j.job_id personnel)
    else none)

/-- The result of `CPSATConstraintBuilder.build_constraints`. -/
structure BuildResult where
  task_durations : List (String × DurationVar)
  assignments : List (String × List String)
  constraints : List CPConstraint
deriving DecidableEq

/-- `CPSATConstraintBuilder.build_constraints`: the stages run in source
order; only the qualification stage can raise (variable creation, precedence,
resource, time-window, gate and execution stages are pure constructions). -/
def build_constraints (jobs : List Job) (preps : List PreparationTask)
    (resources : List Resource) (plan_start : ℤ) : Except SchedError BuildResult :=
  let task_ids := builder_task_ids jobs preps
  let durations :=
    jobs.map (fun j => (j.job_id, job_duration_var j)) ++
      preps.map (fun t => (t.prep_id, prep_duration_var t))
  let prec := build_precedence_constraints jobs preps
  let assignments := build_resource_assignments jobs preps resources
  let resC := build_resource_constraints jobs preps resources assignments task_ids
  let timeC := build_time_window_constraints jobs preps plan_start
  let humans := resources.filter (fun r => r.is_human)
  match build_qualification_constraints humans assignments jobs with
  | .error e => .error e
  | .ok qualC =>
    let execC := build_task_execution_constraints jobs resources assignments task_ids
    .ok { task_durations := durations
          assignments := assignments
          constraints := prec ++ resC ++ timeC ++ qualC ++ execC }

/-! ## Solve pipeline ordering (`src/solvers/cpsat_solver.py`) -/

/-- `CPSATSolver.validate_input`: collected error strings. -/
def validate_input_errors (jobs : List Job) (preps : List PreparationTask)
    (resources : List Resource) : List String :=
  (if jobs.isEmpty && preps.isEmpty then ["No jobs or preparation tasks provided"] else []) ++
  (if resources.isEmpty then ["No resources provided"] else []) ++
  (let all_ids := builder_task_ids jobs preps
   (jobs.map (fun j =>
     (j.predecessor_jobs.filter (fun p => !all_ids.contains p)).map
       (fun p => "Job " ++ j.job_id ++ " depends on unknown task " ++ p))).flatten ++
   (preps.map (fun t =>
     (t.dependencies.filter (fun d => !all_ids.contains d)).map
       (fun d => "Preparation task " ++ t.prep_id ++ " depends on unknown task " ++ d))).flatten)

/-- How far `CPSATSolver.solve` got: `reached_solver` means execution arrived
at `self.solver.Solve(self.model)` (whose outcome is external to this model);
`failed_before_solve` carries the `SolverError` that `solve`'s `except` block
re-raises for a failure in validation or constraint construction. -/
inductive SolveProgress where
  | failed_before_solve (e : SchedError)
  | reached_solver
deriving DecidableEq

/-- The `solve` pipeline up to solver invocation: input validation, then
constraint construction, then objective construction and `Solve`.  Any
exception in the earlier stages is wrapped as
`SolverError("Solve failed: ...")` by the `except` block. -/
def cpsat_solve_progress (jobs : List Job) (preps : List PreparationTask)
    (resources : List Resource) (plan_start : ℤ) : SolveProgress :=
  let errs := validate_input_errors jobs preps resources
  if !errs.isEmpty then
    .failed_before_solve (.solver_error
      ("Solve failed: Input validation failed: " ++ String.intercalate "; " errs))
  else
    match build_constraints jobs preps resources plan_start with
    | .error e => .failed_before_solve (.solver_error ("Solve failed: " ++ e.message))
    | .ok _ => .reached_solver

/-! ## Objective builder (`src/solvers/objective_builder.py`) -/

/-- Symbolic CP-SAT linear expressions, as built by the objective builder. -/
inductive LinExpr where
  | var (name : String)
  | const (n : ℤ)
  | add (a b : LinExpr)
  | sub (a b : LinExpr)
  | mul (a b : LinExpr)
  | scale (c : ℤ) (e : LinExpr)
  | floordiv (e : LinExpr) (d : ℤ)
deriving DecidableEq

/-- Python `sum(...)` over expressions: left fold starting from the integer 0. -/
def py_sum (l : List LinExpr) : LinExpr :=
  l.foldl .add (.const 0)

/-- `ObjectiveWeight` with its constructor defaults. -/
structure ObjectiveWeight where
  makespan : ℚ := 1
  cost : ℚ := 1/10
  utilization : ℚ := 1/10
  waiting : ℚ := 1/5
  switches : ℚ := 1/10
  delays : ℚ := 1/2
  preference : ℚ := 1/20
deriving DecidableEq

/-- `ObjectiveWeight.from_template(PriorityTemplate.BALANCED)`. -/
def balanced_weights : ObjectiveWeight :=
  { makespan := 1, cost := 3/10, utilization := 1/5, waiting := 2/5,
    switches := 1/5, delays := 3/5, preference := 1/10 }

/-- `_build_makespan_objective`: `None` iff there are no task end variables,
otherwise the fresh `makespan` variable (the `M ≥ end(T)` side constraints are
added to the model, not to the returned expression). -/
def build_makespan_objective (task_ends : List String) : Option LinExpr :=
  if task_ends.isEmpty then none else some (.var "makespan")

/-- `_build_cost_objective`: per assignment variable of a resource with a
truthy `hourly_cost`, the term `assign * duration * cents // 60`; `None` iff
no term was collected. -/
def build_cost_objective (resources : List Resource)
    (assignments : List (String × List String)) (task_ids : List String) :
    Option LinExpr :=
  let cost_terms := (assignments.map (fun p =>
    match resources.find? (fun r => r.resource_id == p.1) with
    | none => []
    | some r =>
      match r.hourly_cost with
      | none => []
      | some hc =>
        if hc = 0 then []
        else
          let cents := pyInt (hc * 100)
          (p.2.filter (fun t => task_ids.contains t)).map (fun t =>
            LinExpr.floordiv
              (.mul (.mul (.var ("assign_" ++ p.1 ++ "_" ++ t))
                (.sub (.var ("end_" ++ t)) (.var ("start_" ++ t))))
                (.const cents)) 60))).flatten
  if cost_terms.isEmpty then none else some (py_sum cost_terms)

/-- The inputs of the five sub-objective builders of `build_objective`,
abstracted to their results: each is `None` or a linear expression.  The
claims about `build_objective` (lines 215-260) are settled for every possible
combination of sub-builder results. -/
structure ObjectiveTermInputs where
  makespan_expr : Option LinExpr
  cost_expr : Option LinExpr
  waiting_expr : Option LinExpr
  switches_expr : Option LinExpr
  delays_expr : Option LinExpr
deriving DecidableEq

/-- The candidate `(expression?, weight)` pairs of `build_objective`, in
source order: makespan, cost, waiting, switches, delays.  (`utilization` and
`preference` weights exist but have no corresponding block.) -/
def candidate_terms (w : ObjectiveWeight) (i : ObjectiveTermInputs) :
    List (Option LinExpr × ℚ) :=
  [(i.makespan_expr, w.makespan), (i.cost_expr, w.cost),
   (i.waiting_expr, w.waiting), (i.switches_expr, w.switches),
   (i.delays_expr, w.delays)]

/-- The `objective_terms` list built by the five sequential
`if self.weights.X > 0: ... if expr is not None: add_objective_term` blocks
of `build_objective`. -/
def objective_term_list (w : ObjectiveWeight) (i : ObjectiveTermInputs) :
    List (LinExpr × ℚ) :=
  let ts0 : List (LinExpr × ℚ) := []
  let ts1 := if 0 < w.makespan then
    (match i.makespan_expr with
     | some e => ts0 ++ [(e, w.makespan)]
     | none => ts0) else ts0
  let ts2 := if 0 < w.cost then
    (match i.cost_expr with
     | some e => ts1 ++ [(e, w.cost)]
     | none => ts1) else ts1
  let ts3 := if 0 < w.waiting then
    (match i.waiting_expr with
     | some e => ts2 ++ [(e, w.waiting)]
     | none => ts2) else ts2
  let ts4 := if 0 < w.switches then
    (match i.switches_expr with
     | some e => ts3 ++ [(e, w.switches)]
     | none => ts3) else ts3
  if 0 < w.delays then
    (match i.delays_expr with
     | some e => ts4 ++ [(e, w.delays)]
     | none => ts4) else ts4

/-- `build_objective` (lines 250-260): raise `ConfigurationError` when no
term was collected, otherwise return
`sum(int(weight * 1000) * expr for expr, weight in self.objective_terms)`.
`int(...)` truncates; the weights are exact rationals here (at the template
weights such as 0.3 the double-precision product `0.3 * 1000` is exactly
`300.0`, so the truncation agrees with this rational model). -/
def build_objective (w : ObjectiveWeight) (i : ObjectiveTermInputs) :
    Except SchedError LinExpr :=
  let terms := objective_term_list w i
  if terms.isEmpty then .error (.configuration_error "No valid objective terms found")
  else .ok (py_sum (terms.map (fun p => LinExpr.scale (pyInt (p.2 * 1000)) p.1)))

/-- The claim-side reading of the inclusion rule, written from the amended
claim text: a candidate term is included iff its weight is strictly positive
and its sub-expression is available. -/
def included_terms_spec (w : ObjectiveWeight) (i : ObjectiveTermInputs) :
    List (LinExpr × ℚ) :=
  (candidate_terms w i).filterMap (fun p =>
    if 0 < p.2 then p.1.map (fun e => (e, p.2)) else none)

/-! ## Schedule model (`src/models/schedule.py`) -/

/-- The `validate_duration_matches_interval` validator of `TaskInterval`:
with both times present, accept iff
`abs((end - start).total_seconds() / 3600 - duration_hours) ≤ 0.01`
(the source raises when the difference exceeds 0.01 hours).  Times are epoch
seconds. -/
def validate_duration_matches_interval (start_time end_time : ℤ)
    (duration_hours : ℚ) : Bool :=
  let calculated_hours : ℚ := ((end_time - start_time : ℤ) : ℚ) / 3600
  decide (|calculated_hours - duration_hours| ≤ 1/100)

/-! ## Scheduling service: makespan formatting
(`src/services/scheduling_service.py`, `_format_makespan`) -/

/-- `_format_makespan`: `hours = int(m)`, `minutes = int((m - hours) * 60)`,
emit `PT{hours}H{minutes}M` when `minutes > 0` and `PT{hours}H` otherwise. -/
def format_makespan (makespan_hours : ℚ) : String :=
  let hours := pyInt makespan_hours
  let minutes := pyInt ((makespan_hours - hours) * 60)
  if 0 < minutes then
    "PT" ++ toString hours ++ "H" ++ toString minutes ++ "M"
  else "PT" ++ toString hours ++ "H"

/-- The spec-side formatting rule, written from the spec's words: the ISO-8601
duration `PT{h}H{m}M` whose minute part is omitted exactly when the minute
component is zero. -/
def iso_duration_spec (makespan_hours : ℚ) : String :=
  let hours := pyInt makespan_hours
  let minutes := pyInt ((makespan_hours - hours) * 60)
  if minutes = 0 then "PT" ++ toString hours ++ "H"
  else "PT" ++ toString hours ++ "H" ++ toString minutes ++ "M"

/-! ## Events (`src/models/event.py`, `src/services/event_service.py`) -/

/-- `EventType` from `src/core/constants.py`. -/
inductive EventType where
  | eta_change | sap_update | weather | third_party_ack
  | resource_available | resource_unavailable | task_complete | emergency
deriving DecidableEq

/-- The `.value` string of an `EventType`. -/
def EventType.value : EventType → String
  | .eta_change => "eta_change"
  | .sap_update => "sap_update"
  | .weather => "weather"
  | .third_party_ack => "third_party_ack"
  | .resource_available => "resource_available"
  | .resource_unavailable => "resource_unavailable"
  | .task_complete => "task_complete"
  | .emergency => "emergency"

/-- `EventStatus` from `src/models/event.py`. -/
inductive EventStatus where
  | pending | processing | completed | failed | cancelled
deriving DecidableEq

/-- `ETAChangePayload` (datetimes as epoch seconds). -/
structure ETAChangePayload where
  material_id : Option String := none
  resource_id : Option String := none
  old_eta : Option ℤ := none
  new_eta : ℤ
deriving DecidableEq

/-- `SAPUpdatePayload`. -/
structure SAPUpdatePayload where
  instruction_id : String
  old_status : Option String := none
  new_status : String
deriving DecidableEq

/-- `WeatherEventPayload`. -/
structure WeatherEventPayload where
  weather_type : String
  severity : String
  start_time : ℤ
  end_time : Option ℤ := none
  affected_areas : List String := []
deriving DecidableEq

/-- The `payload` dict of an event, as a tagged value: `get_typed_payload`
succeeds exactly when the dict matches the requested payload class. -/
inductive EventPayload where
  | eta (p : ETAChangePayload)
  | sap (p : SAPUpdatePayload)
  | weather (p : WeatherEventPayload)
  | raw
deriving DecidableEq

/-- `Event` from `src/models/event.py`, restricted to the fields the claims
use.  Datetimes are epoch seconds. -/
structure Event where
  event_id : String
  event_type : EventType
  title : String
  effective_time : ℤ
  expires_at : Option ℤ := none
  scope : EventScope := {}
  payload : EventPayload := .raw
  status : EventStatus := .pending
  error_message : Option String := none
deriving DecidableEq

/-- `Event.is_expired`, with `now` passed explicitly for `datetime.now()`. -/
def Event.is_expired (e : Event) (now : ℤ) : Bool :=
  match e.expires_at with
  | some t => now > t
  | none => false

/-- `Event.is_effective`. -/
def Event.is_effective (e : Event) (now : ℤ) : Bool :=
  now ≥ e.effective_time

/-- `EventService._validate_event`: expired, then not-yet-effective, then
empty scope; each raises a `ValidationError`. -/
def validate_event (now : ℤ) (e : Event) : Except SchedError Unit :=
  if e.is_expired now then
    .error (.validation ("Event " ++ e.event_id ++ " has expired"))
  else if !e.is_effective now then
    .error (.validation ("Event " ++ e.event_id ++ " is not yet effective"))
  else if e.scope.is_empty then
    .error (.validation ("Event " ++ e.event_id ++ " has empty scope"))
  else .ok ()

/-- The keys of a per-type processor result dict that `apply_events` merges:
`affected_tasks` and `delay_hours` (present for the ETA processor only). -/
structure ProcessResult where
  affected_tasks : Option (List String)
  delay_hours : Option ℚ
deriving DecidableEq

/-- `ETAChangeProcessor.process` with `current_schedule = None` (the
`apply_events` path): the impact analysis returns no affected tasks, and
`delay_hours = (new_eta - old_eta) / 3600` when `old_eta` is present,
otherwise 0.  A payload that does not decode as `ETAChangePayload` raises an
`EventProcessingError`. -/
def process_eta_change (p : EventPayload) : Except String ProcessResult :=
  match p with
  | .eta pl =>
    let delay : ℚ := match pl.old_eta with
      | some o => ((pl.new_eta - o : ℤ) : ℚ) / 3600
      | none => 0
    .ok { affected_tasks := some [], delay_hours := some delay }
  | _ => .error "Failed to process ETA change event: invalid payload"

/-- `SAPUpdateProcessor.process`: its result dict carries neither
`affected_tasks` nor `delay_hours`. -/
def process_sap_update (p : EventPayload) : Except String ProcessResult :=
  match p with
  | .sap _ => .ok { affected_tasks := none, delay_hours := none }
  | _ => .error "Failed to process SAP update event: invalid payload"

/-- `WeatherEventProcessor.process`: its result dict carries
`affected_resources`, not `affected_tasks`, and no `delay_hours`. -/
def process_weather (p : EventPayload) : Except String ProcessResult :=
  match p with
  | .weather _ => .ok { affected_tasks := none, delay_hours := none }
  | _ => .error "Failed to process weather event: invalid payload"

/-- The registered processors (`_register_processors`): only `eta_change`,
`sap_update` and `weather` have one. -/
def processor_for (t : EventType) : Option (EventPayload → Except String ProcessResult) :=
  match t with
  | .eta_change => some process_eta_change
  | .sap_update => some process_sap_update
  | .weather => some process_weather
  | _ => none

instance instDecEqExcept {ε α : Type} [DecidableEq ε] [DecidableEq α] :
    DecidableEq (Except ε α) := fun a b =>
  match a, b with
  | .error e₁, .error e₂ =>
    if h : e₁ = e₂ then isTrue (by simp [h]) else isFalse (by simp [h])
  | .error _, .ok _ => isFalse (by simp)
  | .ok _, .error _ => isFalse (by simp)
  | .ok a₁, .ok a₂ =>
    if h : a₁ = a₂ then isTrue (by simp [h]) else isFalse (by simp [h])

/-- Observable outcome of `EventService.process_event`: the final state of
the `Event` object, whether a per-type processor was actually run, and the
returned result or raised error. -/
structure ProcessOutcome where
  event : Event
  processor_ran : Bool
  result : Except SchedError ProcessResult
deriving DecidableEq

/-- `EventService.process_event`: validate, mark processing, look up the
processor, run it, mark completed — any exception marks the event failed and
re-raises. -/
def process_event (now : ℤ) (e : Event) : ProcessOutcome :=
  match validate_event now e with
  | .error err =>
    { event := { e with status := .failed, error_message := some err.message }
      processor_ran := false
      result := .error err }
  | .ok _ =>
    match processor_for e.event_type with
    | none =>
      let msg := "No processor found for event type " ++ e.event_type.value
      { event := { e with status := .failed, error_message := some msg }
        processor_ran := false
        result := .error (.event_processing msg) }
    | some proc =>
      match proc e.payload with
      | .error msg =>
        { event := { e with status := .failed, error_message := some msg }
          processor_ran := true
          result := .error (.event_processing msg) }
      | .ok r =>
        { event := { e with status := .completed }
          processor_ran := true
          result := .ok r }

/-- The `diff` dict assembled by `apply_events`. -/
structure EventDiff where
  affected_tasks : List String
  delays : List (String × ℚ × String)
deriving DecidableEq

/-- The success value of `apply_events`. -/
structure ApplyOut where
  plan_id : String
  diff : EventDiff
  new_makespan : String
deriving DecidableEq

/-- Observable outcome of `apply_events`: the created `Event` objects with
their final statuses (in processing order, up to and including the first
failing one), and the returned dict or the raised `EventProcessingError`. -/
structure ApplyTrace where
  processed : List Event
  result : Except SchedError ApplyOut
deriving DecidableEq

/-- The event loop of `apply_events`, threading the accumulators
`affected_tasks` (a Python set, modelled as a list up to `dedup`), `delays`
and `total_delay_hours`.  The first failing `process_event` raise is caught
by the surrounding `except`, which wraps it as
`EventProcessingError("Failed to apply events: ...")`; the accumulators are
abandoned at that point. -/
def apply_events_loop (now : ℤ) (plan_id : String) :
    List Event → List Event → List String → List (String × ℚ × String) → ℚ →
    ApplyTrace
  | [], processed, affected, delays, total =>
    { processed := processed.reverse
      result := .ok
        { plan_id := plan_id
          diff := { affected_tasks := affected.dedup, delays := delays.reverse }
          new_makespan := "PT" ++ toString (pyInt (24 + total)) ++ "H" } }
  | e :: es, processed, affected, delays, total =>
    let out := process_event now e
    match out.result with
    | .error err =>
      { processed := (out.event :: processed).reverse
        result := .error (.event_processing ("Failed to apply events: " ++ err.message)) }
    | .ok r =>
      let affected2 := match r.affected_tasks with
        | some ts => affected ++ ts
        | none => affected
      let delays2 := match r.delay_hours with
        | some d =>
          if 0 < d then delays ++ [(e.event_id, d, e.event_type.value)] else delays
        | none => delays
      let total2 := match r.delay_hours with
        | some d => total + d
        | none => total
      apply_events_loop now plan_id es (out.event :: processed) affected2 delays2 total2

/-- `EventService.apply_events`.  The events are given as already-shaped
`Event` values with status `pending` (the source builds them from raw dicts
via `EventCreate` and `create_event`, which only adds a generated id). -/
def apply_events (now : ℤ) (plan_id : String) (events : List Event) : ApplyTrace :=
  apply_events_loop now plan_id events [] [] [] 0

/-! ## Scheduling service (`src/services/scheduling_service.py`) -/

/-- One entry of a `job_details` list of a work-package dict. -/
structure JobDetail where
  job_id : String
  name : Option String := none
  base_duration_hours : Option ℚ := none
  required_resources : List String := []
  required_qualifications : List String := []
  predecessor_jobs : List String := []
deriving DecidableEq

/-- One entry of the `materials` list of a work-package dict. -/
structure MaterialSpec where
  material_id : String
  must_kit : Bool := false
deriving DecidableEq

/-- One work-package dict of a scheduling request. -/
structure WorkPackage where
  work_package_id : String
  engine_id : String
  jobs : List String := []
  job_details : List JobDetail := []
  materials : List MaterialSpec := []
deriving DecidableEq

/-- One asset dict of a scheduling request. -/
structure AssetSpec where
  asset_id : String
  name : Option String := none
  is_critical : Bool := false
  exclusive_group : Option String := none
deriving DecidableEq

/-- One human dict of a scheduling request. -/
structure HumanSpec where
  employee_id : String
  name : Option String := none
  qualifications : List String := []
deriving DecidableEq

/-- The request `config` fields that `_validate_request` inspects. -/
structure SchedulingConfig where
  prep_window_days : Option ℚ := none
  objective_template : Option String := none
deriving DecidableEq

/-- `SchedulingRequest`. -/
structure SchedulingRequest where
  work_packages : List WorkPackage
  assets : List AssetSpec := []
  humans : List HumanSpec := []
  config : SchedulingConfig := {}
  request_id : String := "req"
deriving DecidableEq

/-- `_validate_request`: non-empty work packages, some resource, positive
`prep_window_days` when present, known `objective_template` when present. -/
def validate_request (req : SchedulingRequest) : Except SchedError Unit :=
  if req.work_packages.isEmpty then .error (.validation "No work packages provided")
  else if req.assets.isEmpty && req.humans.isEmpty then
    .error (.validation "No resources provided")
  else
    let window_check : Except SchedError Unit :=
      match req.config.prep_window_days with
      | some d =>
        if d ≤ 0 then .error (.validation "prep_window_days must be a positive number")
        else .ok ()
      | none => .ok ()
    match window_check with
    | .error e => .error e
    | .ok _ =>
      match req.config.objective_template with
      | some t =>
        if ["balanced", "protect_sla", "cost_min"].contains t then .ok ()
        else .error (.validation ("Invalid objective_template: " ++ t))
      | none => .ok ()

/-- Construction of one `Job` from a `job_details` entry
(`_parse_request_data`), including the pydantic validators that can fire on
these fields: `base_duration_hours > 0` and no self-dependency.  A pydantic
failure surfaces with class name `ValidationError`. -/
def parse_job_detail (wp : WorkPackage) (jd : JobDetail) : Except SchedError Job :=
  let base := jd.base_duration_hours.getD 4
  if base ≤ 0 then
    .error (.validation ("Job " ++ jd.job_id ++ " base_duration_hours must be positive"))
  else if jd.predecessor_jobs.contains jd.job_id then
    .error (.validation ("Job " ++ jd.job_id ++ " cannot depend on itself"))
  else
    .ok { job_id := jd.job_id
          work_card_id := wp.work_package_id
          engine_id := wp.engine_id
          name := jd.name.getD ("Job " ++ jd.job_id)
          base_duration_hours := base
          required_resources := jd.required_resources.map (fun rid =>
            { resource_id := rid, quantity := 1, is_critical := false })
          required_qualifications := jd.required_qualifications
          predecessor_jobs := jd.predecessor_jobs }

/-- The jobs of one work package: the `job_details` branch when that list is
truthy (non-empty), else the simplified branch over `jobs` ids with the
4-hour default. -/
def parse_work_package_jobs (wp : WorkPackage) : Except SchedError (List Job) :=
  match wp.job_details with
  | [] =>
    .ok (wp.jobs.map (fun jid =>
      { job_id := jid
        work_card_id := wp.work_package_id
        engine_id := wp.engine_id
        name := "Job " ++ jid
        base_duration_hours := 4 }))
  | jds => jds.mapM (parse_job_detail wp)

/-- The resources of `_parse_request_data`: assets become physical resources
with `is_exclusive = is_critical`, humans become human resources. -/
def parse_resources (req : SchedulingRequest) : List Resource :=
  req.assets.map (fun a =>
    { resource_id := a.asset_id
      name := a.name.getD a.asset_id
      kind := .physical a.is_critical a.exclusive_group }) ++
  req.humans.map (fun h =>
    { resource_id := h.employee_id
      name := h.name.getD h.employee_id
      kind := .human h.employee_id h.qualifications })

/-- The preparation tasks of `_parse_request_data`: one `material_kitting`
task per material of each work package. -/
def parse_preparation_tasks (req : SchedulingRequest) : List PreparationTask :=
  (req.work_packages.map (fun wp =>
    wp.materials.map (fun m =>
      { prep_id := "PREP-" ++ m.material_id
        engine_id := wp.engine_id
        work_package_id := wp.work_package_id
        name := "Prepare material " ++ m.material_id
        type := "material_kitting"
        duration_hours := 1
        is_gate := m.must_kit }))).flatten

/-- `_parse_request_data`. -/
def parse_request_data (req : SchedulingRequest) :
    Except SchedError (List Job × List Resource × List PreparationTask) := do
  let jobss ← req.work_packages.mapM parse_work_package_jobs
  .ok (jobss.flatten, parse_resources req, parse_preparation_tasks req)

/-- The exclusive-group scan of `_validate_business_rules`: walk the
resources; the first exclusive physical resource whose group (its
`exclusive_group`, defaulting to its own id) was already seen raises, with
the two conflicting resource ids.  `seen` maps group to the first resource
id encountered. -/
def find_exclusive_conflict (seen : List (String × String)) :
    List Resource → Option (String × String × String)
  | [] => none
  | r :: rs =>
    match r.kind with
    | .physical true g =>
      let group := g.getD r.resource_id
      match seen.lookup group with
      | some prev => some (group, prev, r.resource_id)
      | none => find_exclusive_conflict (seen ++ [(group, r.resource_id)]) rs
    | _ => find_exclusive_conflict seen rs

/-! ### Cycle detection (`_check_circular_dependencies`) -/

/-- The `dependencies` adjacency map: job ids map to `predecessor_jobs`,
prep ids map to `dependencies`; preparation tasks are inserted after the jobs
and so shadow a colliding job id (the sources use distinct ids). -/
def deps_map (jobs : List Job) (preps : List PreparationTask) : String → List String :=
  fun n =>
    match preps.find? (fun t => t.prep_id == n) with
    | some t => t.dependencies
    | none =>
      match jobs.find? (fun j => j.job_id == n) with
      | some j => j.predecessor_jobs
      | none => []

/-- The keys of the `dependencies` dict, in insertion order. -/
def dep_keys (jobs : List Job) (preps : List PreparationTask) : List String :=
  (jobs.map (fun j => j.job_id) ++ preps.map (fun t => t.prep_id)).dedup

/-- Every id mentioned by the dependency map: its keys and all edge targets.
Used only to size the recursion fuel of the DFS. -/
def dep_universe (jobs : List Job) (preps : List PreparationTask) : List String :=
  (dep_keys jobs preps ++ (jobs.map (fun j => j.predecessor_jobs)).flatten ++
    (preps.map (fun t => t.dependencies)).flatten).dedup

mutual
/-- The recursive `has_cycle` of `_check_circular_dependencies`: a node on
the recursion stack means a cycle; a visited node is skipped; otherwise the
node is added to `visited` and to the stack and its neighbors are explored.
The fuel bounds the recursion depth; `none` (exhaustion) cannot occur for the
fuel chosen by `check_circular_dependencies` — see `dfs_visit_fuel`.  On
`some (found, v)`, `v` is the updated visited set. -/
def dfs_visit (deps : String → List String) (fuel : ℕ)
    (visited stack : List String) (n : String) : Option (Bool × List String) :=
  if n ∈ stack then some (true, visited)
  else if n ∈ visited then some (false, visited)
  else
    match fuel with
    | 0 => none
    | f + 1 => dfs_list deps f (n :: visited) (n :: stack) (deps n)
termination_by (fuel, 0)

/-- The `for neighbor in dependencies.get(node, [])` loop of `has_cycle`:
explore the neighbors in order, threading the visited set, stopping at the
first cycle. -/
def dfs_list (deps : String → List String) (fuel : ℕ)
    (visited stack : List String) (ns : List String) : Option (Bool × List String) :=
  match ns with
  | [] => some (false, visited)
  | m :: ms =>
    match dfs_visit deps fuel visited stack m with
    | none => none
    | some (true, v) => some (true, v)
    | some (false, v) => dfs_list deps fuel v stack ms
termination_by (fuel, ns.length + 1)
end

/-- The `for task_id in dependencies:` scan: run the DFS from every key not
yet visited; `true` means the source raises the circular-dependency error.
Fuel exhaustion is mapped to `true`; it is unreachable for the fuel chosen
below (`dfs_visit_fuel`). -/
def scan_keys (deps : String → List String) (fuel : ℕ) :
    List String → List String → Bool × List String
  | [], visited => (false, visited)
  | k :: ks, visited =>
    if k ∈ visited then scan_keys deps fuel ks visited
    else
      match dfs_visit deps fuel visited [] k with
      | none => (true, visited)
      | some (true, v) => (true, v)
      | some (false, v) => scan_keys deps fuel ks v

/-- `_check_circular_dependencies` as a predicate: `true` iff the source
raises `ConstraintViolationError(["no_circular_dependencies"])`. -/
def check_circular_dependencies (jobs : List Job) (preps : List PreparationTask) : Bool :=
  (scan_keys (deps_map jobs preps) ((dep_universe jobs preps).length + 1)
    (dep_keys jobs preps) []).1

/-- An edge of the combined job-and-preparation dependency graph. -/
def dep_edge (jobs : List Job) (preps : List PreparationTask) (a b : String) : Prop :=
  b ∈ deps_map jobs preps a

/-- The combined predecessor graph contains a cycle. -/
def has_dependency_cycle (jobs : List Job) (preps : List PreparationTask) : Prop :=
  ∃ n, Relation.TransGen (dep_edge jobs preps) n n

/-- `_validate_business_rules`: the exclusive-group scan runs first, then the
cycle detection. -/
def validate_business_rules (jobs : List Job) (resources : List Resource)
    (preps : List PreparationTask) : Except SchedError Unit :=
  match find_exclusive_conflict [] resources with
  | some (g, r1, r2) =>
    .error (.resource_conflict ("Multiple exclusive resources in group " ++ g) [r1, r2])
  | none =>
    if check_circular_dependencies jobs preps then
      .error (.constraint_violation "Circular dependency detected in task dependencies"
        ["no_circular_dependencies"])
    else .ok ()

/-! ### `create_schedule` -/

/-- The `error` dict of a failure `SchedulingResponse`, as built by
`create_schedule`'s `except` block from the caught exception. -/
structure ErrorInfo where
  code : String
  message : String
  violated_constraints : List String := []
  conflicting_resources : List String := []
deriving DecidableEq

/-- An abstract successful schedule; its contents come from the external
CP-SAT solver and are opaque to the claims settled here. -/
structure ScheduleOut where
  task_intervals : List (String × ℤ × ℤ × ℚ)
deriving DecidableEq

/-- The observable part of a `SchedulingResponse`. -/
structure SchedulingResponseOut where
  request_id : String
  error : Option ErrorInfo
  schedule : Option ScheduleOut
deriving DecidableEq

/-- `SchedulingService.create_schedule`, parameterized by the solve stage
(`_create_solver` + `_execute_scheduling`), which wraps the external CP-SAT
solver: validate the request, parse it, check the business rules, then solve.
Any raised exception is caught and turned into an error response carrying
`type(e).__name__`, the message and the details; no schedule is returned on
failure. -/
def create_schedule
    (solve : List Job → List Resource → List PreparationTask →
      Except SchedError ScheduleOut)
    (req : SchedulingRequest) : SchedulingResponseOut :=
  let attempt : Except SchedError ScheduleOut := do
    let _ ← validate_request req
    let parsed ← parse_request_data req
    let _ ← validate_business_rules parsed.1 parsed.2.1 parsed.2.2
    solve parsed.1 parsed.2.1 parsed.2.2
  match attempt with
  | .ok s => { request_id := req.request_id, error := none, schedule := some s }
  | .error e =>
    { request_id := req.request_id
      error := some
        { code := e.etype
          message := e.message
          violated_constraints := e.violated_constraints
          conflicting_resources := e.conflicting_resources }
      schedule := none }

/-! ## Claim-side definitions and concrete instances -/

/-- The duration variable as the claim states it, with `round` in place of
the source's `int(...)` truncation. -/
def round_duration_var_claim (j : Job) : DurationVar :=
  match j.fixed_duration with
  | some f => .const (round (f * 60))
  | none =>
    .range (round ((4/5 : ℚ) * (j.base_duration_hours * 60)))
      (round ((3/2 : ℚ) * (j.base_duration_hours * 60)))

/-- The duration variable as the amended claim states it: truncation (floor,
for the positive durations at hand) instead of rounding. -/
def duration_var_trunc_spec (j : Job) : DurationVar :=
  match j.fixed_duration with
  | some f => .const ⌊f * 60⌋
  | none =>
    .range ⌊(4/5 : ℚ) * (j.base_duration_hours * 60)⌋
      ⌊(3/2 : ℚ) * (j.base_duration_hours * 60)⌋

/-- A job with `fixed_duration = 0.125` hours (exactly representable in
binary floating point, so the rational model coincides with the source's
float arithmetic): `int(0.125 * 60) = int(7.5) = 7`, while `round` gives 8. -/
def jobX : Job :=
  { job_id := "J-FD"
    work_card_id := "WC-1"
    engine_id := "ENG-1"
    name := "fixed duration job"
    base_duration_hours := 4
    fixed_duration := some (1/8) }

/-- A job with `base_duration_hours = 0.0625` (exactly representable):
the upper bound is `int(0.0625 * 60 * 1.5) = int(5.625) = 5`, while `round`
gives 6. -/
def jobY : Job :=
  { job_id := "J-RNG"
    work_card_id := "WC-1"
    engine_id := "ENG-1"
    name := "range duration job"
    base_duration_hours := 1/16 }

/-- A non-exclusive tool with `total_quantity = 2` (claim C1's cumulative
case). -/
def toolR2 : Resource :=
  { resource_id := "TOOL-1"
    name := "tool of quantity two"
    total_quantity := 2
    kind := .physical false none }

/-- A non-exclusive tool with `total_quantity = 1` (claim C1's reduction
case). -/
def toolR1 : Resource :=
  { resource_id := "TOOL-X"
    name := "tool of quantity one"
    total_quantity := 1
    kind := .physical false none }

/-- Two jobs that both require `TOOL-1`. -/
def jobsToolPair : List Job :=
  [{ job_id := "J1"
     work_card_id := "WC-1"
     engine_id := "ENG-1"
     name := "first tool user"
     base_duration_hours := 2
     required_resources := [{ resource_id := "TOOL-1", quantity := 2, is_critical := false }] },
   { job_id := "J2"
     work_card_id := "WC-1"
     engine_id := "ENG-1"
     name := "second tool user"
     base_duration_hours := 3
     required_resources := [{ resource_id := "TOOL-1", quantity := 2, is_critical := false }] }]

/-- A human resource without `hourly_cost` (so the cost objective collects no
term) and without the `welder` qualification. -/
def humanNoCost : Resource :=
  { resource_id := "H1"
    name := "worker one"
    kind := .human "H1" ["inspector"] }

/-- Objective sub-expression inputs where only the makespan expression is
available — the situation produced by `build_cost_objective` on resources
without hourly cost and by the other sub-builders on inputs without edges,
areas or deadlines. -/
def inputsOnlyMakespan : ObjectiveTermInputs :=
  { makespan_expr := some (.var "makespan")
    cost_expr := none
    waiting_expr := none
    switches_expr := none
    delays_expr := none }

/-- Objective sub-expression inputs where all five expressions are
available. -/
def inputsAllPresent : ObjectiveTermInputs :=
  { makespan_expr := some (.var "makespan")
    cost_expr := some (.var "cost")
    waiting_expr := some (.var "waiting")
    switches_expr := some (.var "switches")
    delays_expr := some (.var "delays") }

/-- A job that requires the `welder` qualification. -/
def jobWelder : Job :=
  { job_id := "J-Q"
    work_card_id := "WC-1"
    engine_id := "ENG-1"
    name := "welding job"
    base_duration_hours := 2
    required_qualifications := ["welder"] }

/-- A successfully processable ETA-change event: in scope, effective at 0,
with a four-hour slip (`new_eta - old_eta = 14400` seconds). -/
def evA : Event :=
  { event_id := "EV-A"
    event_type := .eta_change
    title := "eta slip"
    effective_time := 0
    scope := { job_ids := ["J1"] }
    payload := .eta { new_eta := 14400, old_eta := some 0 } }

/-- An event of type `eta_change` whose payload does not decode as
`ETAChangePayload`, so its processor raises. -/
def evB : Event :=
  { event_id := "EV-B"
    event_type := .eta_change
    title := "bad payload"
    effective_time := 0
    scope := { job_ids := ["J1"] }
    payload := .sap { instruction_id := "SAP-1", new_status := "approved" } }

/-- An effective, unexpired event whose scope is empty. -/
def evEmpty : Event :=
  { event_id := "EV-EMPTY"
    event_type := .eta_change
    title := "empty scope"
    effective_time := 0
    payload := .eta { new_eta := 3600 } }

/-- A solve stage standing in for the external CP-SAT solver in concrete
evaluations of `create_schedule`; the inputs below never reach it. -/
def noop_solve : List Job → List Resource → List PreparationTask →
    Except SchedError ScheduleOut :=
  fun _ _ _ => .error (.solver_error "external solver not modelled")

/-- A request whose job graph has the cycle `J1 ↔ J2` and which also carries
two exclusive resources in the same exclusive group `G`. -/
def reqCycleConflict : SchedulingRequest :=
  { work_packages := [
      { work_package_id := "WP1"
        engine_id := "ENG-1"
        job_details := [
          { job_id := "J1", predecessor_jobs := ["J2"] },
          { job_id := "J2", predecessor_jobs := ["J1"] }] }]
    assets := [
      { asset_id := "A1", is_critical := true, exclusive_group := some "G" },
      { asset_id := "A2", is_critical := true, exclusive_group := some "G" }]
    humans := [{ employee_id := "H1" }] }

/-- The parsed jobs of `reqCycleConflict`. -/
def jobsCycleConflict : List Job :=
  [{ job_id := "J1"
     work_card_id := "WP1"
     engine_id := "ENG-1"
     name := "Job J1"
     base_duration_hours := 4
     predecessor_jobs := ["J2"] },
   { job_id := "J2"
     work_card_id := "WP1"
     engine_id := "ENG-1"
     name := "Job J2"
     base_duration_hours := 4
     predecessor_jobs := ["J1"] }]

/-- The parsed resources of `reqCycleConflict`. -/
def resourcesCycleConflict : List Resource :=
  [{ resource_id := "A1", name := "A1", kind := .physical true (some "G") },
   { resource_id := "A2", name := "A2", kind := .physical true (some "G") },
   { resource_id := "H1", name := "H1", kind := .human "H1" [] }]

/-- A request with the same `J1 ↔ J2` cycle and no exclusive-group
conflict. -/
def reqCycleOnly : SchedulingRequest :=
  { work_packages := [
      { work_package_id := "WP1"
        engine_id := "ENG-1"
        job_details := [
          { job_id := "J1", predecessor_jobs := ["J2"] },
          { job_id := "J2", predecessor_jobs := ["J1"] }] }]
    humans := [{ employee_id := "H1" }] }

/-- The parsed resources of `reqCycleOnly`. -/
def resourcesCycleOnly : List Resource :=
  [{ resource_id := "H1", name := "H1", kind := .human "H1" [] }]

/-! ## DFS safety invariant -/

/-- The black-node invariant of the cycle-detection DFS: the visited nodes
off the recursion stack are closed under dependency edges and admit a rank
that strictly decreases along every edge.  A completed scan leaves every key
black, which forbids cycles. -/
def BlackSafe (deps : String → List String) (visited stack : List String) : Prop :=
  ∃ r : String → ℕ, ∀ x, x ∈ visited → x ∉ stack →
    ∀ y ∈ deps x, y ∈ visited ∧ y ∉ stack ∧ r y < r x

/-- The number of universe nodes not yet visited — the DFS fuel measure. -/
def unvisited_count (u visited : List String) : ℕ :=
  (u.filter (fun x => !(visited.contains x))).length

/-! ## Helper lemmas -/

theorem pyInt_eq_floor (q : ℚ) (h : 0 ≤ q) : pyInt q = ⌊q⌋ := by
  simp [pyInt, h]

theorem floor_eval (q : ℚ) (n : ℤ) (h1 : (n:ℚ) ≤ q) (h2 : q < n + 1) :
    ⌊q⌋ = n := by
  rw [Int.floor_eq_iff]
  exact ⟨h1, by linarith⟩

theorem pyInt_eval (q : ℚ) (n : ℤ) (h0 : 0 ≤ q) (h1 : (n:ℚ) ≤ q)
    (h2 : q < n + 1) : pyInt q = n := by
  rw [pyInt_eq_floor q h0]
  exact floor_eval q n h1 h2

/-! ## C9 — scope merge associativity -/

/-- C9: merging event scopes is associative, with `merge` acting as
elementwise set union on the five id collections (`EventScope.merge`,
`src/models/event.py` lines 62-78; the `list(set(...))` results are compared
by their element sets). -/
theorem scope_merge_assoc (a b c : EventScope) :
    (a.merge (b.merge c)).element_sets = ((a.merge b).merge c).element_sets := by
  simp only [EventScope.element_sets, EventScope.merge, Prod.mk.injEq]
  refine ⟨?_, ?_, ?_, ?_, ?_⟩ <;> (ext x; simp [List.mem_dedup, or_assoc])

/-! ## C7 — duration consistency of task intervals -/

/-- C7: every `TaskInterval` accepted by the pydantic validator
`validate_duration_matches_interval` (`src/models/schedule.py` lines 79-88)
— hence every interval of a returned schedule — satisfies
`|end - start - duration_hours × 3600| ≤ 60` seconds (the validator enforces
the tighter 0.01-hour = 36-second bound). -/
theorem task_interval_duration_consistency (s e : ℤ) (d : ℚ)
    (h : validate_duration_matches_interval s e d = true) :
    |((e - s : ℤ) : ℚ) - d * 3600| ≤ 60 := by
  have h1 : |((e - s : ℤ) : ℚ) / 3600 - d| ≤ 1/100 := by
    simpa [validate_duration_matches_interval] using h
  have h2 : ((e - s : ℤ) : ℚ) - d * 3600 = 3600 * (((e - s : ℤ) : ℚ) / 3600 - d) := by
    ring
  rw [h2, abs_mul, abs_of_nonneg (by norm_num : (0:ℚ) ≤ 3600)]
  have h3 : (3600:ℚ) * |((e - s : ℤ) : ℚ) / 3600 - d| ≤ 3600 * (1/100) :=
    mul_le_mul_of_nonneg_left h1 (by norm_num)
  linarith

theorem task_interval_duration_consistency_witness :
    validate_duration_matches_interval 0 3600 1 = true ∧
    |((3600 - 0 : ℤ) : ℚ) - 1 * 3600| ≤ 60 :=
  ⟨by norm_num [validate_duration_matches_interval],
    task_interval_duration_consistency 0 3600 1
      (by norm_num [validate_duration_matches_interval])⟩

/-! ## C8 — ISO-8601 makespan formatting -/

/-- C8: for every non-negative makespan, `_format_makespan`
(`src/services/scheduling_service.py` lines 559-565) produces the
`PT{h}H{m}M` form whose minute part is omitted exactly when the minute
component is zero (in particular `24.0` formats as `PT24H`, never
`PT24H0M`). -/
theorem format_makespan_omits_zero_minutes (q : ℚ) (h : 0 ≤ q) :
    format_makespan q = iso_duration_spec q := by
  have hfrac : (0:ℚ) ≤ (q - (pyInt q : ℤ)) * 60 := by
    rw [pyInt_eq_floor q h]
    have : (⌊q⌋ : ℚ) ≤ q := Int.floor_le q
    have : (0:ℚ) ≤ q - (⌊q⌋ : ℚ) := by linarith
    positivity
  have hm : 0 ≤ pyInt ((q - (pyInt q : ℤ)) * 60) := by
    rw [pyInt_eq_floor _ hfrac]
    exact Int.floor_nonneg.2 hfrac
  unfold format_makespan iso_duration_spec
  rcases lt_or_eq_of_le hm with hpos | hzero
  · rw [if_pos hpos, if_neg (by omega)]
  · rw [if_neg (by omega), if_pos hzero.symm]

theorem format_makespan_omits_zero_minutes_witness :
    (0:ℚ) ≤ 24 ∧ format_makespan 24 = iso_duration_spec 24 ∧
    format_makespan 24 = "PT24H" ∧ format_makespan (49/2) = "PT24H30M" := by
  refine ⟨by norm_num, format_makespan_omits_zero_minutes 24 (by norm_num), ?_, ?_⟩
  · simp only [format_makespan]
    norm_num [pyInt]
    rfl
  · simp only [format_makespan]
    norm_num [pyInt]
    rfl

/-! ## C10 — empty-scope events are rejected before processing -/

/-- C10: an event with an empty scope is rejected by `process_event` with a
`ValidationError` raised before any per-type processor runs, and the event's
status is set to `failed` (`_validate_event` and `process_event`,
`src/services/event_service.py`). -/
theorem empty_scope_event_rejected (now : ℤ) (e : Event)
    (h : e.scope.is_empty = true) :
    (process_event now e).processor_ran = false ∧
    (∃ m, (process_event now e).result = .error (.validation m)) ∧
    (process_event now e).event.status = .failed := by
  unfold process_event validate_event
  cases hexp : e.is_expired now <;> cases heff : e.is_effective now <;>
    simp [hexp, heff, h]

theorem empty_scope_event_rejected_witness :
    evEmpty.scope.is_empty = true ∧
    ((process_event 5 evEmpty).processor_ran = false ∧
      (∃ m, (process_event 5 evEmpty).result = .error (.validation m)) ∧
      (process_event 5 evEmpty).event.status = .failed) :=
  ⟨rfl, empty_scope_event_rejected 5 evEmpty rfl⟩

/-! ## C1 — cumulative capacity constraints are not emitted -/

/-- C1 (code bug): for a non-exclusive resource with `total_quantity = 2`,
`_build_cumulative_resource_constraint`
(`src/solvers/constraint_builder.py` lines 373-388) emits no constraint at
all — its body past the quantity-1 fallback is a TODO `pass` — and the whole
resource-constraint stage emits nothing for two jobs contending for the
resource; only the `total_quantity = 1` fallback emits the exclusive
no-overlap constraint. -/
theorem cumulative_capacity_constraint_not_emitted :
    toolR2.total_quantity = 2 ∧
    build_cumulative_resource_constraint toolR2 ["J1", "J2"]
      [("TOOL-1", ["J1", "J2"])] ["J1", "J2"] = [] ∧
    build_resource_constraints jobsToolPair [] [toolR2]
      (build_resource_assignments jobsToolPair [] [toolR2])
      (builder_task_ids jobsToolPair []) = [] ∧
    build_cumulative_resource_constraint toolR1 ["J1", "J2"]
      [("TOOL-X", ["J1", "J2"])] ["J1", "J2"] =
      [.no_overlap "TOOL-X" ["J1", "J2"]] := by
  decide

/-! ## C6 — duration variables truncate rather than round -/

/-- C6 counterexample: at `fixed_duration = 0.125` the source creates the
constant `int(7.5) = 7` while the claim's `round(7.5) = 8`; at
`base_duration_hours = 0.0625` the source's upper bound is `int(5.625) = 5`
while the claim's `round(5.625) = 6`.  (Both inputs are exactly
representable in binary floating point, so the source's float arithmetic
agrees with this rational model.) -/
theorem duration_rounding_counterexample :
    job_duration_var jobX = .const 7 ∧
    round_duration_var_claim jobX = .const 8 ∧
    job_duration_var jobX ≠ round_duration_var_claim jobX ∧
    job_duration_var jobY = .range 3 5 ∧
    round_duration_var_claim jobY = .range 3 6 ∧
    job_duration_var jobY ≠ round_duration_var_claim jobY := by
  have hx : job_duration_var jobX = .const 7 := by
    have e1 : pyInt ((1/8 : ℚ) * 60) = 7 :=
      pyInt_eval _ 7 (by norm_num) (by norm_num) (by norm_num)
    unfold job_duration_var
    rw [show jobX.fixed_duration = some (1/8 : ℚ) from rfl]
    dsimp only
    rw [if_neg (by norm_num), e1]
  have hx' : round_duration_var_claim jobX = .const 8 := by
    have e2 : round ((1/8 : ℚ) * 60) = 8 := by
      rw [round_eq]
      rw [show (1/8 : ℚ) * 60 + 1/2 = ((8:ℤ):ℚ) by norm_num]
      exact Int.floor_intCast 8
    unfold round_duration_var_claim
    rw [show jobX.fixed_duration = some (1/8 : ℚ) from rfl]
    dsimp only
    rw [e2]
  have hy : job_duration_var jobY = .range 3 5 := by
    have e3 : pyInt ((1/16 : ℚ) * 60 * (4/5)) = 3 :=
      pyInt_eval _ 3 (by norm_num) (by norm_num) (by norm_num)
    have e4 : pyInt ((1/16 : ℚ) * 60 * (3/2)) = 5 :=
      pyInt_eval _ 5 (by norm_num) (by norm_num) (by norm_num)
    unfold job_duration_var
    rw [show jobY.fixed_duration = (none : Option ℚ) from rfl]
    dsimp only
    rw [show jobY.base_duration_hours = (1/16 : ℚ) from rfl, e3, e4]
  have hy' : round_duration_var_claim jobY = .range 3 6 := by
    have e5 : round ((4/5 : ℚ) * ((1/16 : ℚ) * 60)) = 3 := by
      rw [round_eq]
      rw [show (4/5 : ℚ) * ((1/16 : ℚ) * 60) + 1/2 = 7/2 by norm_num]
      exact floor_eval (7/2) 3 (by norm_num) (by norm_num)
    have e6 : round ((3/2 : ℚ) * ((1/16 : ℚ) * 60)) = 6 := by
      rw [round_eq]
      rw [show (3/2 : ℚ) * ((1/16 : ℚ) * 60) + 1/2 = 49/8 by norm_num]
      exact floor_eval (49/8) 6 (by norm_num) (by norm_num)
    unfold round_duration_var_claim
    rw [show jobY.fixed_duration = (none : Option ℚ) from rfl]
    dsimp only
    rw [show jobY.base_duration_hours = (1/16 : ℚ) from rfl, e5, e6]
  refine ⟨hx, hx', by rw [hx, hx']; simp, hy, hy', by rw [hy, hy']; simp⟩

/-- C6 (amended): for every job with positive durations, the duration
variable is the constant `int(fixed_duration × 60)` (truncation) when
`fixed_duration` is set, and otherwise ranges over
`[int(0.8 × base × 60), int(1.5 × base × 60)]` (`_create_task_variables`,
`src/solvers/constraint_builder.py` lines 186-193). -/
theorem job_duration_var_truncates (j : Job)
    (hfix : ∀ f, j.fixed_duration = some f → 0 < f)
    (hbase : 0 < j.base_duration_hours) :
    job_duration_var j = duration_var_trunc_spec j := by
  have hb : (0:ℚ) ≤ j.base_duration_hours := hbase.le
  have h45 : j.base_duration_hours * 60 * (4/5) =
      (4/5 : ℚ) * (j.base_duration_hours * 60) := by ring
  have h32 : j.base_duration_hours * 60 * (3/2) =
      (3/2 : ℚ) * (j.base_duration_hours * 60) := by ring
  unfold job_duration_var duration_var_trunc_spec
  cases hj : j.fixed_duration with
  | none =>
    dsimp only
    rw [pyInt_eq_floor _ (by positivity), pyInt_eq_floor _ (by positivity),
      h45, h32]
  | some f =>
    have hf : 0 < f := hfix f hj
    dsimp only
    rw [if_neg (ne_of_gt hf), pyInt_eq_floor _ (by positivity)]

theorem job_duration_var_truncates_witness :
    (∀ f, jobX.fixed_duration = some f → 0 < f) ∧
    0 < jobX.base_duration_hours ∧
    job_duration_var jobX = duration_var_trunc_spec jobX := by
  have hfix : ∀ f, jobX.fixed_duration = some f → 0 < f := by
    intro f h
    have h8 : some (1/8 : ℚ) = some f := h
    injection h8 with h8
    rw [← h8]
    norm_num
  exact ⟨hfix, by norm_num [jobX],
    job_duration_var_truncates jobX hfix (by norm_num [jobX])⟩

/-! ## C3 — objective term inclusion and scaling -/

theorem objective_step_eq (acc : List (LinExpr × ℚ)) (oe : Option LinExpr) (wt : ℚ) :
    (if 0 < wt then
      (match oe with
       | some ex => acc ++ [(ex, wt)]
       | none => acc)
     else acc) =
    acc ++ (if 0 < wt then oe.map (fun ex => (ex, wt)) else none).toList := by
  by_cases h : 0 < wt <;> cases oe <;> simp [h]

theorem objective_term_list_eq_included (w : ObjectiveWeight) (i : ObjectiveTermInputs) :
    objective_term_list w i = included_terms_spec w i := by
  unfold objective_term_list included_terms_spec candidate_terms
  rw [List.filterMap_eq_flatMap_toList]
  rw [objective_step_eq, objective_step_eq, objective_step_eq, objective_step_eq,
    objective_step_eq]
  simp [List.flatMap]

/-- C3 counterexample: with the `balanced` template all five recognized
weights are strictly positive, yet on inputs where the cost sub-expression is
`None` — as produced by `_build_cost_objective` when no resource carries an
`hourly_cost` — only the makespan term is included.  Inclusion is therefore
not equivalent to `weight > 0`, contradicting the claim's "included iff its
weight is strictly greater than 0". -/
theorem objective_inclusion_counterexample :
    build_cost_objective [humanNoCost] [("H1", ["J1"])] ["J1"] = none ∧
    (0:ℚ) < balanced_weights.makespan ∧ (0:ℚ) < balanced_weights.cost ∧
    (0:ℚ) < balanced_weights.waiting ∧ (0:ℚ) < balanced_weights.switches ∧
    (0:ℚ) < balanced_weights.delays ∧
    objective_term_list balanced_weights inputsOnlyMakespan = [(.var "makespan", 1)] ∧
    build_objective balanced_weights inputsOnlyMakespan =
      .ok (.add (.const 0) (.scale 1000 (.var "makespan"))) := by
  have hterms : objective_term_list balanced_weights inputsOnlyMakespan =
      [(.var "makespan", 1)] := by
    norm_num [objective_term_list, balanced_weights, inputsOnlyMakespan]
  have hscale : pyInt ((1:ℚ) * 1000) = 1000 :=
    pyInt_eval _ 1000 (by norm_num) (by norm_num) (by norm_num)
  refine ⟨rfl, by norm_num [balanced_weights], by norm_num [balanced_weights],
    by norm_num [balanced_weights], by norm_num [balanced_weights],
    by norm_num [balanced_weights], hterms, ?_⟩
  unfold build_objective
  rw [hterms]
  have hscale' : pyInt (1000 : ℚ) = 1000 :=
    pyInt_eval _ 1000 (by norm_num) (by norm_num) (by norm_num)
  simp [py_sum, hscale, hscale']

/-- C3 (amended): whenever `build_objective`
(`src/solvers/objective_builder.py` lines 215-260) returns an objective, that
objective is `sum(int(weight × 1000) × expr)` — `int()` truncates — over
exactly the terms whose weight is strictly positive *and* whose
sub-expression is available (not `None`).  At the template weights the
truncated scale factor agrees with `round(weight × 1000)`; for `0.3` it is
300 (see the witness). -/
theorem build_objective_scaled_included_terms (w : ObjectiveWeight)
    (i : ObjectiveTermInputs) (e : LinExpr)
    (h : build_objective w i = .ok e) :
    objective_term_list w i = included_terms_spec w i ∧
    e = py_sum ((included_terms_spec w i).map
      (fun p => LinExpr.scale (pyInt (p.2 * 1000)) p.1)) := by
  refine ⟨objective_term_list_eq_included w i, ?_⟩
  unfold build_objective at h
  by_cases hemp : (objective_term_list w i).isEmpty
  · rw [if_pos hemp] at h
    cases h
  · rw [if_neg hemp] at h
    injection h with h
    rw [← h, objective_term_list_eq_included w i]

theorem build_objective_scaled_included_terms_witness :
    build_objective balanced_weights inputsAllPresent =
      .ok (py_sum ((included_terms_spec balanced_weights inputsAllPresent).map
        (fun p => LinExpr.scale (pyInt (p.2 * 1000)) p.1))) ∧
    pyInt ((3/10 : ℚ) * 1000) = 300 ∧
    pyInt ((3/10 : ℚ) * 1000) = round ((3/10 : ℚ) * 1000) := by
  have h300 : pyInt ((3/10 : ℚ) * 1000) = 300 :=
    pyInt_eval _ 300 (by norm_num) (by norm_num) (by norm_num)
  have hround : round ((3/10 : ℚ) * 1000) = 300 := by
    rw [round_eq]
    exact floor_eval _ 300 (by norm_num) (by norm_num)
  have hbuilt : ∃ e, build_objective balanced_weights inputsAllPresent = .ok e := by
    unfold build_objective
    rw [if_neg ?_]
    · exact ⟨_, rfl⟩
    · norm_num [objective_term_list, balanced_weights, inputsAllPresent]
  obtain ⟨e, he⟩ := hbuilt
  have hmain := build_objective_scaled_included_terms balanced_weights
    inputsAllPresent e he
  refine ⟨?_, h300, h300.trans hround.symm⟩
  rw [he, hmain.2]

/-! ## C2 — batched event application -/

theorem except_isOk_true {ε α : Type} (x : Except ε α) (h : x.isOk = true) :
    ∃ a, x = .ok a := by
  cases x with
  | error e => simp [Except.isOk, Except.toBool] at h
  | ok a => exact ⟨a, rfl⟩

theorem except_isOk_false {ε α : Type} (x : Except ε α) (h : x.isOk = false) :
    ∃ e, x = .error e := by
  cases x with
  | error e => exact ⟨e, rfl⟩
  | ok a => simp [Except.isOk, Except.toBool] at h

/-- `process_event` either succeeds with the event marked `completed` or
fails with the event marked `failed`. -/
theorem process_event_status (now : ℤ) (e : Event) :
    ((process_event now e).result.isOk = true ∧
      (process_event now e).event.status = .completed) ∨
    ((process_event now e).result.isOk = false ∧
      (process_event now e).event.status = .failed) := by
  unfold process_event
  cases validate_event now e with
  | error err => right; simp [Except.isOk, Except.toBool]
  | ok u =>
    cases processor_for e.event_type with
    | none => right; simp [Except.isOk, Except.toBool]
    | some proc =>
      dsimp only
      cases hp : proc e.payload with
      | error m => right; simp [Except.isOk, Except.toBool]
      | ok r => left; simp [Except.isOk, Except.toBool]

/-- The event loop of `apply_events` on a failure at position `k`: the raise
is wrapped as an `EventProcessingError` and the created events are exactly
the processed prefix up to and including the failing one. -/
theorem apply_events_loop_failure (now : ℤ) (pid : String) :
    ∀ (es : List Event) (k : ℕ) (hk : k < es.length)
      (processed : List Event) (affected : List String)
      (delays : List (String × ℚ × String)) (total : ℚ),
      (∀ e ∈ es.take k, (process_event now e).result.isOk = true) →
      (process_event now (es.get ⟨k, hk⟩)).result.isOk = false →
      (∃ m, (apply_events_loop now pid es processed affected delays total).result =
        .error (.event_processing m)) ∧
      (apply_events_loop now pid es processed affected delays total).processed =
        processed.reverse ++ (es.take (k+1)).map (fun e => (process_event now e).event) := by
  intro es
  induction es with
  | nil => intro k hk; exact absurd hk (by simp)
  | cons e es ih =>
    intro k hk processed affected delays total hsucc hfail
    cases k with
    | zero =>
      have hget : (e :: es).get ⟨0, hk⟩ = e := rfl
      rw [hget] at hfail
      obtain ⟨err, herr⟩ := except_isOk_false _ hfail
      unfold apply_events_loop
      dsimp only
      rw [herr]
      dsimp only
      exact ⟨⟨_, rfl⟩, by simp⟩
    | succ k =>
      have hhead : (process_event now e).result.isOk = true :=
        hsucc e (by simp)
      obtain ⟨r, hr⟩ := except_isOk_true _ hhead
      have hk' : k < es.length := Nat.lt_of_succ_lt_succ hk
      have hsucc' : ∀ x ∈ es.take k, (process_event now x).result.isOk = true := by
        intro x hx
        exact hsucc x (by simp [hx])
      have hfail' : (process_event now (es.get ⟨k, hk'⟩)).result.isOk = false := hfail
      have step := ih k hk' ((process_event now e).event :: processed)
        (match r.affected_tasks with
         | some ts => affected ++ ts
         | none => affected)
        (match r.delay_hours with
         | some d =>
           if 0 < d then delays ++ [(e.event_id, d, e.event_type.value)] else delays
         | none => delays)
        (match r.delay_hours with
         | some d => total + d
         | none => total) hsucc' hfail'
      unfold apply_events_loop
      dsimp only
      rw [hr]
      dsimp only
      refine ⟨step.1, ?_⟩
      rw [step.2]
      simp [List.take_succ_cons]

/-- C2 (amended): when processing of event `k` in `apply_events`
(`src/services/event_service.py` lines 335-404) fails, the events `0..k-1`
remain `completed` and the failing event's status becomes `failed`, but
`apply_events` raises `EventProcessingError` and returns no diff: the
accumulated contributions of the earlier events are discarded, not kept. -/
theorem apply_events_failure_keeps_prefix (now : ℤ) (pid : String) (es : List Event)
    (k : ℕ) (hk : k < es.length)
    (hsucc : ∀ e ∈ es.take k, (process_event now e).result.isOk = true)
    (hfail : (process_event now (es.get ⟨k, hk⟩)).result.isOk = false) :
    (∃ m, (apply_events now pid es).result = .error (.event_processing m)) ∧
    (apply_events now pid es).processed =
      (es.take (k+1)).map (fun e => (process_event now e).event) ∧
    (∀ e ∈ es.take k, (process_event now e).event.status = .completed) ∧
    (process_event now (es.get ⟨k, hk⟩)).event.status = .failed := by
  have main := apply_events_loop_failure now pid es k hk [] [] [] 0 hsucc hfail
  refine ⟨main.1, by simpa [apply_events] using main.2, ?_, ?_⟩
  · intro e he
    rcases process_event_status now e with ⟨_, h2⟩ | ⟨h1, _⟩
    · exact h2
    · rw [hsucc e he] at h1
      cases h1
  · rcases process_event_status now (es.get ⟨k, hk⟩) with ⟨h1, _⟩ | ⟨_, h2⟩
    · rw [hfail] at h1
      cases h1
    · exact h2

/-- Evaluation of `process_event` on the well-formed ETA event `evA`. -/
theorem process_evA_eval : process_event 10 evA =
    { event := { evA with status := .completed }
      processor_ran := true
      result := .ok { affected_tasks := some [], delay_hours := some 4 } } := by
  simp [process_event, validate_event, evA, Event.is_expired, Event.is_effective,
    EventScope.is_empty, processor_for, process_eta_change]
  norm_num

/-- Evaluation of `process_event` on `evB`, whose payload does not decode. -/
theorem process_evB_eval : process_event 10 evB =
    { event := { evB with
        status := .failed
        error_message := some "Failed to process ETA change event: invalid payload" }
      processor_ran := true
      result := .error (.event_processing
        "Failed to process ETA change event: invalid payload") } := by
  simp [process_event, validate_event, evB, Event.is_expired, Event.is_effective,
    EventScope.is_empty, processor_for, process_eta_change]

/-- C2 counterexample: on `[evA, evB]`, event 0 succeeds (alone it would
contribute the delay entry `("EV-A", 4, "eta_change")` to the diff) and event
1 fails; `apply_events` then raises `EventProcessingError` and returns no
diff at all — the first event's contribution to the accumulated diff is not
kept, contradicting the claim.  The statuses are `completed` for event 0 and
`failed` for event 1. -/
theorem apply_events_diff_discarded_counterexample :
    (process_event 10 evA).result =
      .ok { affected_tasks := some [], delay_hours := some 4 } ∧
    (apply_events 10 "PLAN-X" [evA]).result = .ok
      { plan_id := "PLAN-X"
        diff := { affected_tasks := [], delays := [("EV-A", 4, "eta_change")] }
        new_makespan := "PT28H" } ∧
    (apply_events 10 "PLAN-X" [evA, evB]).result =
      .error (.event_processing
        "Failed to apply events: Failed to process ETA change event: invalid payload") ∧
    (apply_events 10 "PLAN-X" [evA, evB]).processed.map (fun e => e.status) =
      [.completed, .failed] := by
  have h28 : pyInt (28 : ℚ) = 28 :=
    pyInt_eval _ 28 (by norm_num) (by norm_num) (by norm_num)
  refine ⟨by rw [process_evA_eval], ?_, ?_, ?_⟩
  · unfold apply_events apply_events_loop
    rw [process_evA_eval]
    unfold apply_events_loop
    norm_num [EventType.value, evA, List.dedup]
    rw [h28]
    rfl
  · unfold apply_events apply_events_loop
    rw [process_evA_eval]
    unfold apply_events_loop
    rw [process_evB_eval]
    norm_num [EventType.value, evA]
    rfl
  · unfold apply_events apply_events_loop
    rw [process_evA_eval]
    unfold apply_events_loop
    rw [process_evB_eval]
    simp

theorem apply_events_failure_keeps_prefix_witness :
    (∃ m, (apply_events 10 "PLAN-X" [evA, evB]).result =
      .error (.event_processing m)) ∧
    (apply_events 10 "PLAN-X" [evA, evB]).processed =
      (([evA, evB]).take 2).map (fun e => (process_event 10 e).event) ∧
    (∀ e ∈ ([evA, evB]).take 1, (process_event 10 e).event.status = .completed) ∧
    (process_event 10 (([evA, evB]).get ⟨1, by decide⟩)).event.status = .failed := by
  have hsucc : ∀ e ∈ ([evA, evB]).take 1,
      (process_event 10 e).result.isOk = true := by
    intro e he
    rw [show ([evA, evB]).take 1 = [evA] from rfl] at he
    rw [List.mem_singleton.mp he, process_evA_eval]
    rfl
  have hfail : (process_event 10 (([evA, evB]).get ⟨1, by decide⟩)).result.isOk =
      false := by
    rw [show ([evA, evB]).get ⟨1, by decide⟩ = evB from rfl, process_evB_eval]
    rfl
  exact apply_events_failure_keeps_prefix 10 "PLAN-X" [evA, evB] 1 (by decide)
    hsucc hfail

/-! ## C4 — unsatisfiable qualifications fail before solving -/

/-- Every human resource holds an assignment variable for every job (the
human branch of `_build_resource_constraints` creates one per job), provided
resource ids are distinct (the source keys `resource_assignments` by id). -/
theorem assignments_contains_human (jobs : List Job) (preps : List PreparationTask)
    (resources : List Resource) (r : Resource) (j : Job)
    (hnodup : (resources.map (fun x => x.resource_id)).Nodup)
    (hr : r ∈ resources) (hhuman : r.is_human = true) (hj : j ∈ jobs) :
    assignments_contains (build_resource_assignments jobs preps resources)
      r.resource_id j.job_id = true := by
  induction resources with
  | nil => cases hr
  | cons a rs ih =>
    have hnd1 : a.resource_id ∉ rs.map (fun x => x.resource_id) :=
      (List.nodup_cons.mp hnodup).1
    have hnd2 : (rs.map (fun x => x.resource_id)).Nodup :=
      (List.nodup_cons.mp hnodup).2
    rcases List.mem_cons.mp hr with rfl | hr'
    · have hmem : j.job_id ∈ resource_requiring_tasks r jobs preps := by
        unfold resource_requiring_tasks
        cases hk : r.kind with
        | human a b =>
          dsimp only
          exact List.mem_append_left _ (List.mem_map_of_mem _ hj)
        | physical a b =>
          simp [Resource.is_human, hk] at hhuman
      simp [assignments_contains, build_resource_assignments, List.lookup, hmem]
    · have hne : (r.resource_id == a.resource_id) = false := by
        rw [beq_eq_false_iff_ne]
        intro hcontra
        exact hnd1 (hcontra ▸ List.mem_map_of_mem _ hr')
      have := ih hnd2 hr'
      simpa [assignments_contains, build_resource_assignments, List.lookup, hne]
        using this

theorem isEmpty_map {α β : Type} (f : α → β) (l : List α) :
    (l.map f).isEmpty = l.isEmpty := by
  cases l <;> rfl

/-- The per-qualification filter of
`_build_collaborative_qualification_constraint`. -/
theorem qual_filter_empty_of_uncovered (humans : List Resource)
    (assignments : List (String × List String)) (job_id q : String)
    (hno : ∀ hr ∈ humans, hr.has_qualification q = false) :
    (humans.filter (fun hr => hr.has_qualification q &&
      assignments_contains assignments hr.resource_id job_id)).isEmpty = true := by
  rw [List.isEmpty_iff, List.filter_eq_nil_iff]
  intro hr hhr
  simp [hno hr hhr]

/-- If the qualification loop returns constraints, every qualification in its
input list had a non-empty candidate filter. -/
theorem qual_loop_ok_covered (job_id : String) (humans : List Resource)
    (assignments : List (String × List String)) :
    ∀ (qs : List String) (l : List CPConstraint),
      qualification_loop job_id humans assignments qs = .ok l →
      ∀ q ∈ qs, ((humans.filter (fun hr => hr.has_qualification q &&
        assignments_contains assignments hr.resource_id job_id)).isEmpty) = false := by
  intro qs
  induction qs with
  | nil => intro l h q hq; cases hq
  | cons q0 qs ih =>
    intro l h q hq
    unfold qualification_loop at h
    dsimp only at h
    rw [isEmpty_map] at h
    by_cases hemp : (humans.filter (fun hr => hr.has_qualification q0 &&
        assignments_contains assignments hr.resource_id job_id)).isEmpty = true
    · rw [if_pos hemp] at h
      cases h
    · rw [if_neg hemp] at h
      rcases List.mem_cons.mp hq with rfl | hq'
      · simpa using hemp
      · cases hrest : qualification_loop job_id humans assignments qs with
        | error e => rw [hrest] at h; cases h
        | ok l' => exact ih l' hrest q hq'

/-- If some qualification in the list has an empty candidate filter, the
qualification loop raises. -/
theorem qual_loop_raises (job_id : String) (humans : List Resource)
    (assignments : List (String × List String)) :
    ∀ (qs : List String) (q : String), q ∈ qs →
      ((humans.filter (fun hr => hr.has_qualification q &&
        assignments_contains assignments hr.resource_id job_id)).isEmpty) = true →
      ∃ err, qualification_loop job_id humans assignments qs = .error err := by
  intro qs
  induction qs with
  | nil => intro q hq; cases hq
  | cons q0 qs ih =>
    intro q hq hemp
    unfold qualification_loop
    dsimp only
    rw [isEmpty_map]
    by_cases hemp0 : (humans.filter (fun hr => hr.has_qualification q0 &&
        assignments_contains assignments hr.resource_id job_id)).isEmpty = true
    · rw [if_pos hemp0]
      exact ⟨_, rfl⟩
    · rw [if_neg hemp0]
      rcases List.mem_cons.mp hq with rfl | hq'
      · exact absurd hemp hemp0
      · obtain ⟨err, herr⟩ := ih q hq' hemp
        rw [herr]
        exact ⟨err, rfl⟩

/-- Characterization of a raised qualification error: it is the
`ConstraintViolationError` with the formatted message for some qualification
of the list whose candidate filter is empty. -/
theorem qual_loop_error_shape (job_id : String) (humans : List Resource)
    (assignments : List (String × List String)) :
    ∀ (qs : List String) (err : SchedError),
      qualification_loop job_id humans assignments qs = .error err →
      ∃ q2 ∈ qs, err = .constraint_violation (qualification_message q2 job_id) [] ∧
        ((humans.filter (fun hr => hr.has_qualification q2 &&
          assignments_contains assignments hr.resource_id job_id)).isEmpty) = true := by
  intro qs
  induction qs with
  | nil => intro err h; cases h
  | cons q0 qs ih =>
    intro err h
    unfold qualification_loop at h
    dsimp only at h
    rw [isEmpty_map] at h
    by_cases hemp : (humans.filter (fun hr => hr.has_qualification q0 &&
        assignments_contains assignments hr.resource_id job_id)).isEmpty = true
    · rw [if_pos hemp] at h
      injection h with h
      exact ⟨q0, by simp, h.symm, hemp⟩
    · rw [if_neg hemp] at h
      cases hrest : qualification_loop job_id humans assignments qs with
      | error e =>
        rw [hrest] at h
        injection h with h
        obtain ⟨q2, hq2, hshape, hempty⟩ := ih e hrest
        exact ⟨q2, by simp [hq2], h ▸ hshape, hempty⟩
      | ok l' => rw [hrest] at h; cases h

/-- If some job has a qualification with an empty candidate filter, the
qualification stage raises. -/
theorem build_qualification_raises (humans : List Resource)
    (assignments : List (String × List String)) :
    ∀ (jobs : List Job) (J : Job) (q : String), J ∈ jobs →
      q ∈ J.required_qualifications →
      ((humans.filter (fun hr => hr.has_qualification q &&
        assignments_contains assignments hr.resource_id J.job_id)).isEmpty) = true →
      ∃ err, build_qualification_constraints humans assignments jobs = .error err := by
  intro jobs
  induction jobs with
  | nil => intro J q hJ; cases hJ
  | cons j js ih =>
    intro J q hJ hq hemp
    unfold build_qualification_constraints
    cases hloop : qualification_loop j.job_id humans assignments j.required_qualifications with
    | error e =>
      exact ⟨e, rfl⟩
    | ok l =>
      rcases List.mem_cons.mp hJ with rfl | hJ'
      · have := qual_loop_ok_covered J.job_id humans assignments
          J.required_qualifications l hloop q hq
        rw [hemp] at this
        cases this
      · obtain ⟨err, herr⟩ := ih J q hJ' hq hemp
        rw [herr]
        exact ⟨err, rfl⟩

/-- Characterization of an error raised by the qualification stage. -/
theorem build_qualification_error_shape (humans : List Resource)
    (assignments : List (String × List String)) :
    ∀ (jobs : List Job) (err : SchedError),
      build_qualification_constraints humans assignments jobs = .error err →
      ∃ J2 ∈ jobs, ∃ q2 ∈ J2.required_qualifications,
        err = .constraint_violation (qualification_message q2 J2.job_id) [] ∧
        ((humans.filter (fun hr => hr.has_qualification q2 &&
          assignments_contains assignments hr.resource_id J2.job_id)).isEmpty) = true := by
  intro jobs
  induction jobs with
  | nil => intro err h; cases h
  | cons j js ih =>
    intro err h
    unfold build_qualification_constraints at h
    cases hloop : qualification_loop j.job_id humans assignments j.required_qualifications with
    | error e =>
      rw [hloop] at h
      injection h with h
      obtain ⟨q2, hq2, hshape, hempty⟩ :=
        qual_loop_error_shape j.job_id humans assignments _ e hloop
      exact ⟨j, by simp, q2, hq2, h ▸ hshape, hempty⟩
    | ok l =>
      rw [hloop] at h
      cases hrest : build_qualification_constraints humans assignments js with
      | error e =>
        rw [hrest] at h
        injection h with h
        obtain ⟨J2, hJ2, q2, hq2, hshape, hempty⟩ := ih e hrest
        exact ⟨J2, by simp [hJ2], q2, hq2, h ▸ hshape, hempty⟩
      | ok l' => rw [hrest] at h; cases h

/-- C4: if a job requires a qualification that no human resource in the input
holds, constraint construction fails with a `ConstraintViolationError` whose
message mentions an uncovered qualification and its job's id, and the `solve`
pipeline never reaches the CP-SAT solver invocation
(`_build_collaborative_qualification_constraint`,
`src/solvers/constraint_builder.py` lines 455-486, and `CPSATSolver.solve`,
`src/solvers/cpsat_solver.py` lines 145-160). -/
theorem qualification_unsatisfiable_fails_before_solve
    (jobs : List Job) (preps : List PreparationTask) (resources : List Resource)
    (plan_start : ℤ) (J : Job) (q : String)
    (hnodup : (resources.map (fun x => x.resource_id)).Nodup)
    (hJ : J ∈ jobs) (hq : q ∈ J.required_qualifications)
    (hno : ∀ r ∈ resources, r.has_qualification q = false) :
    (∃ q2 j2,
      build_constraints jobs preps resources plan_start =
        .error (.constraint_violation (qualification_message q2 j2) []) ∧
      (∃ J2 ∈ jobs, j2 = J2.job_id ∧ q2 ∈ J2.required_qualifications ∧
        ∀ r ∈ resources, r.has_qualification q2 = false) ∧
      (∃ s t, qualification_message q2 j2 = s ++ q2 ++ t) ∧
      (∃ s t, qualification_message q2 j2 = s ++ j2 ++ t)) ∧
    cpsat_solve_progress jobs preps resources plan_start ≠ .reached_solver := by
  set humans := resources.filter (fun r => r.is_human) with hhumans
  set assignments := build_resource_assignments jobs preps resources with hassign
  have hmemres : ∀ hr ∈ humans, hr ∈ resources := by
    intro hr hhr
    exact (List.mem_filter.mp hhr).1
  have hempJ : ((humans.filter (fun hr => hr.has_qualification q &&
      assignments_contains assignments hr.resource_id J.job_id)).isEmpty) = true :=
    qual_filter_empty_of_uncovered humans assignments J.job_id q
      (fun hr hhr => hno hr (hmemres hr hhr))
  obtain ⟨err, herr⟩ :=
    build_qualification_raises humans assignments jobs J q hJ hq hempJ
  obtain ⟨J2, hJ2, q2, hq2, hshape, hempty⟩ :=
    build_qualification_error_shape humans assignments jobs err herr
  have hbuild : build_constraints jobs preps resources plan_start =
      .error (.constraint_violation (qualification_message q2 J2.job_id) []) := by
    unfold build_constraints
    dsimp only
    rw [← hassign, ← hhumans, herr, hshape]
  have huncovered : ∀ r ∈ resources, r.has_qualification q2 = false := by
    intro r hrres
    cases hk : r.kind with
    | physical a b => simp [Resource.has_qualification, hk]
    | human a b =>
      have hhum : r.is_human = true := by simp [Resource.is_human, hk]
      have hrh : r ∈ humans := List.mem_filter.mpr ⟨hrres, hhum⟩
      by_contra hcontra
      have hqual : r.has_qualification q2 = true := by
        cases hb : r.has_qualification q2 with
        | true => rfl
        | false => exact absurd hb hcontra
      have hcont : assignments_contains assignments r.resource_id J2.job_id = true :=
        assignments_contains_human jobs preps resources r J2 hnodup hrres hhum hJ2
      have hrfilter : r ∈ humans.filter (fun hr => hr.has_qualification q2 &&
          assignments_contains assignments hr.resource_id J2.job_id) :=
        List.mem_filter.mpr ⟨hrh, by rw [hqual, hcont]; rfl⟩
      rw [List.isEmpty_iff] at hempty
      rw [hempty] at hrfilter
      cases hrfilter
  refine ⟨⟨q2, J2.job_id, hbuild, ⟨J2, hJ2, rfl, hq2, huncovered⟩, ?_, ?_⟩, ?_⟩
  · exact ⟨"No personnel found with qualification \x27",
      "\x27 for job " ++ J2.job_id, by simp [qualification_message, String.append_assoc]⟩
  · exact ⟨"No personnel found with qualification \x27" ++ q2 ++ "\x27 for job ",
      "", by simp [qualification_message, String.append_assoc]⟩
  · unfold cpsat_solve_progress
    dsimp only
    by_cases hval : (validate_input_errors jobs preps resources).isEmpty = true
    · rw [hval]
      rw [if_neg (by simp)]
      rw [hbuild]
      simp
    · rw [Bool.not_eq_true] at hval
      rw [hval]
      simp

theorem qualification_unsatisfiable_fails_before_solve_witness :
    (([humanNoCost].map (fun x => x.resource_id)).Nodup) ∧
    ((∃ q2 j2,
      build_constraints [jobWelder] [] [humanNoCost] 0 =
        .error (.constraint_violation (qualification_message q2 j2) []) ∧
      (∃ J2 ∈ [jobWelder], j2 = J2.job_id ∧ q2 ∈ J2.required_qualifications ∧
        ∀ r ∈ [humanNoCost], r.has_qualification q2 = false) ∧
      (∃ s t, qualification_message q2 j2 = s ++ q2 ++ t) ∧
      (∃ s t, qualification_message q2 j2 = s ++ j2 ++ t)) ∧
    cpsat_solve_progress [jobWelder] [] [humanNoCost] 0 ≠ .reached_solver) := by
  have hnodup : (([humanNoCost] : List Resource).map (fun x => x.resource_id)).Nodup := by
    simp
  refine ⟨hnodup, qualification_unsatisfiable_fails_before_solve [jobWelder] []
    [humanNoCost] 0 jobWelder "welder" hnodup (List.mem_singleton.mpr rfl)
    (by simp [jobWelder]) ?_⟩
  intro r hr
  rw [List.mem_singleton.mp hr]
  rfl

/-! ## C5 — circular dependencies -/

theorem mem_map_le_foldr_max (f : String → ℕ) (l : List String) (y : String)
    (hy : y ∈ l) : f y ≤ (l.map f).foldr max 0 := by
  induction l with
  | nil => cases hy
  | cons a l ih =>
    rcases List.mem_cons.mp hy with rfl | hy'
    · exact le_max_left _ _
    · exact (ih hy').trans (le_max_right _ _)

/-- Soundness of a completed (`false`) DFS call: the visited set grows, the
call's node ends up visited and off the stack, and the black-node invariant
is preserved. -/
theorem dfs_spec (deps : String → List String) : ∀ fuel : ℕ,
    (∀ visited stack n v', dfs_visit deps fuel visited stack n = some (false, v') →
      (∀ x ∈ visited, x ∈ v') ∧ n ∈ v' ∧ n ∉ stack ∧
      (BlackSafe deps visited stack → BlackSafe deps v' stack)) ∧
    (∀ ns visited stack v', dfs_list deps fuel visited stack ns = some (false, v') →
      (∀ x ∈ visited, x ∈ v') ∧ (∀ m ∈ ns, m ∈ v' ∧ m ∉ stack) ∧
      (BlackSafe deps visited stack → BlackSafe deps v' stack)) := by
  have hlist : ∀ fuel : ℕ,
      (∀ visited stack n v', dfs_visit deps fuel visited stack n = some (false, v') →
        (∀ x ∈ visited, x ∈ v') ∧ n ∈ v' ∧ n ∉ stack ∧
        (BlackSafe deps visited stack → BlackSafe deps v' stack)) →
      ∀ ns visited stack v', dfs_list deps fuel visited stack ns = some (false, v') →
        (∀ x ∈ visited, x ∈ v') ∧ (∀ m ∈ ns, m ∈ v' ∧ m ∉ stack) ∧
        (BlackSafe deps visited stack → BlackSafe deps v' stack) := by
    intro fuel hv ns
    induction ns with
    | nil =>
      intro visited stack v' h
      unfold dfs_list at h
      have h2 : visited = v' := by
        injection h with h
        exact congrArg Prod.snd h
      exact ⟨fun x hx => h2 ▸ hx, fun m hm => absurd hm (List.not_mem_nil m),
        fun hbs => h2 ▸ hbs⟩
    | cons m ms ih =>
      intro visited stack v' h
      unfold dfs_list at h
      cases hm : dfs_visit deps fuel visited stack m with
      | none => rw [hm] at h; cases h
      | some p =>
        rcases p with ⟨b, v1⟩
        cases b with
        | true => rw [hm] at h; simp at h
        | false =>
          rw [hm] at h
          have h1 := hv visited stack m v1 hm
          have h2 := ih v1 stack v' h
          refine ⟨fun x hx => h2.1 x (h1.1 x hx), ?_, fun hbs => h2.2.2 (h1.2.2.2 hbs)⟩
          intro m2 hm2
          rcases List.mem_cons.mp hm2 with rfl | hm2'
          · exact ⟨h2.1 m2 h1.2.1, h1.2.2.1⟩
          · exact h2.2.1 m2 hm2'
  intro fuel
  induction fuel with
  | zero =>
    have hv : ∀ visited stack n v',
        dfs_visit deps 0 visited stack n = some (false, v') →
        (∀ x ∈ visited, x ∈ v') ∧ n ∈ v' ∧ n ∉ stack ∧
        (BlackSafe deps visited stack → BlackSafe deps v' stack) := by
      intro visited stack n v' h
      unfold dfs_visit at h
      by_cases hs : n ∈ stack
      · rw [if_pos hs] at h; simp at h
      · rw [if_neg hs] at h
        by_cases hvv : n ∈ visited
        · rw [if_pos hvv] at h
          have h2 : visited = v' := by
            injection h with h
            exact congrArg Prod.snd h
          exact ⟨fun x hx => h2 ▸ hx, h2 ▸ hvv, hs, fun hbs => h2 ▸ hbs⟩
        · rw [if_neg hvv] at h
          cases h
    exact ⟨hv, hlist 0 hv⟩
  | succ f ihf =>
    have hv : ∀ visited stack n v',
        dfs_visit deps (f + 1) visited stack n = some (false, v') →
        (∀ x ∈ visited, x ∈ v') ∧ n ∈ v' ∧ n ∉ stack ∧
        (BlackSafe deps visited stack → BlackSafe deps v' stack) := by
      intro visited stack n v' h
      unfold dfs_visit at h
      by_cases hs : n ∈ stack
      · rw [if_pos hs] at h; simp at h
      · rw [if_neg hs] at h
        by_cases hvv : n ∈ visited
        · rw [if_pos hvv] at h
          have h2 : visited = v' := by
            injection h with h
            exact congrArg Prod.snd h
          exact ⟨fun x hx => h2 ▸ hx, h2 ▸ hvv, hs, fun hbs => h2 ▸ hbs⟩
        · rw [if_neg hvv] at h
          have hrec := hlist f ihf.1 (deps n) (n :: visited) (n :: stack) v' h
          obtain ⟨hsub, hmems, hpres⟩ := hrec
          refine ⟨fun x hx => hsub x (List.mem_cons_of_mem _ hx),
            hsub n (List.mem_cons_self _ _), hs, ?_⟩
          intro hbs
          have hstep1 : BlackSafe deps (n :: visited) (n :: stack) := by
            obtain ⟨r, hr⟩ := hbs
            refine ⟨r, ?_⟩
            intro x hxv hxs
            have hxn : x ≠ n := fun hcx => hxs (hcx ▸ List.mem_cons_self _ _)
            have hxv' : x ∈ visited := by
              rcases List.mem_cons.mp hxv with rfl | hxv'
              · exact absurd rfl hxn
              · exact hxv'
            have hxs' : x ∉ stack := fun hc => hxs (List.mem_cons_of_mem _ hc)
            intro y hy
            obtain ⟨hy1, hy2, hy3⟩ := hr x hxv' hxs' y hy
            have hyn : y ≠ n := fun hcy => hvv (hcy ▸ hy1)
            refine ⟨List.mem_cons_of_mem _ hy1, ?_, hy3⟩
            intro hc
            rcases List.mem_cons.mp hc with rfl | hc'
            · exact hyn rfl
            · exact hy2 hc'
          obtain ⟨r2, hr2⟩ := hpres hstep1
          refine ⟨fun x => if x = n then ((deps n).map r2).foldr max 0 + 1 else r2 x, ?_⟩
          intro x hxv' hxs
          by_cases hxn : x = n
          · subst hxn
            intro y hy
            obtain ⟨hy1, hy2⟩ := hmems y hy
            have hyn : y ≠ x := fun hcy => hy2 (hcy ▸ List.mem_cons_self _ _)
            have hys : y ∉ stack := fun hc => hy2 (List.mem_cons_of_mem _ hc)
            refine ⟨hy1, hys, ?_⟩
            dsimp only
            rw [if_neg hyn, if_pos rfl]
            exact Nat.lt_succ_of_le (mem_map_le_foldr_max r2 (deps x) y hy)
          · have hxns : x ∉ n :: stack := by
              intro hc
              rcases List.mem_cons.mp hc with rfl | hc'
              · exact hxn rfl
              · exact hxs hc'
            intro y hy
            obtain ⟨hy1, hy2, hy3⟩ := hr2 x hxv' hxns y hy
            have hyn : y ≠ n := fun hcy => hy2 (hcy ▸ List.mem_cons_self _ _)
            have hys : y ∉ stack := fun hc => hy2 (List.mem_cons_of_mem _ hc)
            refine ⟨hy1, hys, ?_⟩
            dsimp only
            rw [if_neg hyn, if_neg hxn]
            exact hy3
    exact ⟨hv, hlist (f + 1) hv⟩

/-- Soundness of a completed (`false`) key scan. -/
theorem scan_keys_false_spec (deps : String → List String) (fuel : ℕ) :
    ∀ (keys : List String) (visited v2 : List String),
      scan_keys deps fuel keys visited = (false, v2) →
      (∀ x ∈ visited, x ∈ v2) ∧ (∀ k ∈ keys, k ∈ v2) ∧
      (BlackSafe deps visited [] → BlackSafe deps v2 []) := by
  intro keys
  induction keys with
  | nil =>
    intro visited v2 h
    unfold scan_keys at h
    have h2 : visited = v2 := congrArg Prod.snd h
    exact ⟨fun x hx => h2 ▸ hx, fun k hk => absurd hk (List.not_mem_nil k),
      fun hbs => h2 ▸ hbs⟩
  | cons k ks ih =>
    intro visited v2 h
    unfold scan_keys at h
    by_cases hkv : k ∈ visited
    · rw [if_pos hkv] at h
      have h2 := ih visited v2 h
      refine ⟨h2.1, ?_, h2.2.2⟩
      intro k2 hk2
      rcases List.mem_cons.mp hk2 with rfl | hk2'
      · exact h2.1 k2 hkv
      · exact h2.2.1 k2 hk2'
    · rw [if_neg hkv] at h
      cases hd : dfs_visit deps fuel visited [] k with
      | none => rw [hd] at h; simp at h
      | some p =>
        rcases p with ⟨b, v1⟩
        cases b with
        | true => rw [hd] at h; simp at h
        | false =>
          rw [hd] at h
          have h1 := (dfs_spec deps fuel).1 visited [] k v1 hd
          have h2 := ih v1 v2 h
          refine ⟨fun x hx => h2.1 x (h1.1 x hx), ?_, fun hbs => h2.2.2 (h1.2.2.2 hbs)⟩
          intro k2 hk2
          rcases List.mem_cons.mp hk2 with rfl | hk2'
          · exact h2.1 k2 h1.2.1
          · exact h2.2.1 k2 hk2'

/-- A node with an outgoing dependency edge is a key of the dependency map. -/
theorem dep_edge_source_mem_keys (jobs : List Job) (preps : List PreparationTask)
    (a b : String) (h : dep_edge jobs preps a b) : a ∈ dep_keys jobs preps := by
  unfold dep_edge deps_map at h
  unfold dep_keys
  rw [List.mem_dedup]
  cases hf : preps.find? (fun t => t.prep_id == a) with
  | some t =>
    have hmem := List.mem_of_find?_eq_some hf
    have heq : t.prep_id = a := by simpa using List.find?_some hf
    exact List.mem_append_right _ (heq ▸ List.mem_map_of_mem _ hmem)
  | none =>
    rw [hf] at h
    cases hg : jobs.find? (fun j => j.job_id == a) with
    | some j =>
      have hmem := List.mem_of_find?_eq_some hg
      have heq : j.job_id = a := by simpa using List.find?_some hg
      exact List.mem_append_left _ (heq ▸ List.mem_map_of_mem _ hmem)
    | none => rw [hg] at h; cases h

theorem transGen_exists_first {α : Type} (rel : α → α → Prop) (a b : α)
    (h : Relation.TransGen rel a b) : ∃ c, rel a c := by
  induction h with
  | single h => exact ⟨_, h⟩
  | tail h1 h2 ih => exact ih

/-- Soundness of the cycle scan: if `_check_circular_dependencies` does not
raise, the combined dependency graph is acyclic. -/
theorem check_circular_false_acyclic (jobs : List Job) (preps : List PreparationTask)
    (h : check_circular_dependencies jobs preps = false) :
    ¬ has_dependency_cycle jobs preps := by
  unfold check_circular_dependencies at h
  rcases hsk : scan_keys (deps_map jobs preps) ((dep_universe jobs preps).length + 1)
      (dep_keys jobs preps) [] with ⟨b, v⟩
  rw [hsk] at h
  dsimp at h
  subst h
  have hspec := scan_keys_false_spec (deps_map jobs preps)
    ((dep_universe jobs preps).length + 1) (dep_keys jobs preps) [] v hsk
  have hbs0 : BlackSafe (deps_map jobs preps) [] [] :=
    ⟨fun _ => 0, by intro x hx; cases hx⟩
  obtain ⟨r, hr⟩ := hspec.2.2 hbs0
  rintro ⟨n, hT⟩
  have hdesc : ∀ a c, Relation.TransGen (dep_edge jobs preps) a c →
      a ∈ v → c ∈ v ∧ r c < r a := by
    intro a c hT2
    induction hT2 with
    | single hedge =>
      intro ha
      obtain ⟨h1, -, h3⟩ := hr a ha (List.not_mem_nil a) _ hedge
      exact ⟨h1, h3⟩
    | tail hT2 hedge ih2 =>
      intro ha
      obtain ⟨hbV, hlt⟩ := ih2 ha
      obtain ⟨hcV, -, hlt2⟩ := hr _ hbV (List.not_mem_nil _) _ hedge
      exact ⟨hcV, lt_trans hlt2 hlt⟩
  obtain ⟨c, hc⟩ := transGen_exists_first _ n n hT
  have hnv : n ∈ v := hspec.2.1 n (dep_edge_source_mem_keys jobs preps n c hc)
  exact lt_irrefl (r n) (hdesc n n hT hnv).2

/-- C5 (amended): for a request that passes request validation, parses, and
has no exclusive-group conflict, a cycle in the combined
job-and-preparation-task predecessor graph makes `create_schedule` return an
error response with code `ConstraintViolationError` and
`violated_constraints = ["no_circular_dependencies"]`, and no schedule
(`_check_circular_dependencies` and `create_schedule`,
`src/services/scheduling_service.py`). -/
theorem circular_dependency_rejected
    (solve : List Job → List Resource → List PreparationTask →
      Except SchedError ScheduleOut)
    (req : SchedulingRequest) (jobs : List Job) (resources : List Resource)
    (preps : List PreparationTask)
    (hval : validate_request req = .ok ())
    (hparse : parse_request_data req = .ok (jobs, resources, preps))
    (hexcl : find_exclusive_conflict [] resources = none)
    (hcyc : has_dependency_cycle jobs preps) :
    (create_schedule solve req).error = some
      { code := "ConstraintViolationError"
        message := "Circular dependency detected in task dependencies"
        violated_constraints := ["no_circular_dependencies"]
        conflicting_resources := [] } ∧
    (create_schedule solve req).schedule = none := by
  have hcc : check_circular_dependencies jobs preps = true := by
    cases hb : check_circular_dependencies jobs preps with
    | false => exact absurd hcyc (check_circular_false_acyclic jobs preps hb)
    | true => rfl
  have hbiz : validate_business_rules jobs resources preps =
      .error (.constraint_violation "Circular dependency detected in task dependencies"
        ["no_circular_dependencies"]) := by
    unfold validate_business_rules
    rw [hexcl]
    dsimp only
    rw [hcc]
    rfl
  have hattempt : (do
      let _ ← validate_request req
      let parsed ← parse_request_data req
      let _ ← validate_business_rules parsed.1 parsed.2.1 parsed.2.2
      solve parsed.1 parsed.2.1 parsed.2.2 : Except SchedError ScheduleOut) =
      .error (.constraint_violation "Circular dependency detected in task dependencies"
        ["no_circular_dependencies"]) := by
    rw [hval, hparse]
    show Bind.bind (validate_business_rules jobs resources preps)
      (fun _ => solve jobs resources preps) =
      Except.error (.constraint_violation
        "Circular dependency detected in task dependencies"
        ["no_circular_dependencies"])
    rw [hbiz]
    rfl
  unfold create_schedule
  dsimp only
  rw [hattempt]
  exact ⟨rfl, rfl⟩

theorem circular_dependency_rejected_witness :
    validate_request reqCycleOnly = .ok () ∧
    parse_request_data reqCycleOnly = .ok (jobsCycleConflict, resourcesCycleOnly, []) ∧
    find_exclusive_conflict [] resourcesCycleOnly = none ∧
    has_dependency_cycle jobsCycleConflict [] ∧
    ((create_schedule noop_solve reqCycleOnly).error = some
      { code := "ConstraintViolationError"
        message := "Circular dependency detected in task dependencies"
        violated_constraints := ["no_circular_dependencies"]
        conflicting_resources := [] } ∧
    (create_schedule noop_solve reqCycleOnly).schedule = none) := by
  have hedge12 : dep_edge jobsCycleConflict [] "J1" "J2" := by
    unfold dep_edge
    decide
  have hedge21 : dep_edge jobsCycleConflict [] "J2" "J1" := by
    unfold dep_edge
    decide
  have hcyc : has_dependency_cycle jobsCycleConflict [] :=
    ⟨"J1", Relation.TransGen.head hedge12 (Relation.TransGen.single hedge21)⟩
  exact ⟨rfl, rfl, rfl, hcyc,
    circular_dependency_rejected noop_solve reqCycleOnly jobsCycleConflict
      resourcesCycleOnly [] rfl rfl rfl hcyc⟩

/-- C5 counterexample: a request whose job graph has the cycle `J1 ↔ J2` but
which also carries two exclusive resources in the same group fails with a
`ResourceConflictError` — not a `ConstraintViolationError`, and without
`"no_circular_dependencies"` — because `_validate_business_rules` checks
exclusive-group conflicts before cycle detection. -/
theorem circular_claim_counterexample :
    parse_request_data reqCycleConflict =
      .ok (jobsCycleConflict, resourcesCycleConflict, []) ∧
    has_dependency_cycle jobsCycleConflict [] ∧
    (create_schedule noop_solve reqCycleConflict).error = some
      { code := "ResourceConflictError"
        message := "Multiple exclusive resources in group G"
        violated_constraints := []
        conflicting_resources := ["A1", "A2"] } ∧
    (create_schedule noop_solve reqCycleConflict).schedule = none ∧
    "ResourceConflictError" ≠ "ConstraintViolationError" := by
  have hedge12 : dep_edge jobsCycleConflict [] "J1" "J2" := by
    unfold dep_edge
    decide
  have hedge21 : dep_edge jobsCycleConflict [] "J2" "J1" := by
    unfold dep_edge
    decide
  exact ⟨rfl,
    ⟨"J1", Relation.TransGen.head hedge12 (Relation.TransGen.single hedge21)⟩,
    rfl, rfl, by decide⟩

end ORToolsSched
